import Mathlib

/-!
# GenericPS2Keyboard: scan-code decoding, key tracking and key-code remapping

A shallow embedding of `GenericPS2Keyboard::dispatchKeyboardEventWithScancode`
and `GenericPS2Keyboard::remapFunctionKeys`, and of the device-facing functions
`setCommandByte`, `setLEDs`, `setKeyboardEnable`, `setAlphaLockFeedback`,
`setNumLockFeedback`, `setDevicePowerState`, `stop` and `interruptOccurred`
(GenericPS2Keyboard.cpp).

* Machine integers (`UInt8` scan codes, `UInt32` key codes) are natural numbers;
  the only arithmetic on them is masking and a guarded decrement, so nothing wraps.
* The member variables the decode path reads and writes are the fields of the
  structure `GenericPS2Keyboard`.
* The collaborators of the decode path (the translation table, the uptime clock,
  the power root domain) are the fields of the structure `Host`.
* The effects of one call (events handed to `dispatchKeyboardEvent`, the power
  notification) are recorded in the structure `Outcome`.
* The constants of the headers outside the source tree are the fields of the structure
  `Constants`; the controller that runs a request is the structure `Controller`, and
  the unbounded loop of `setCommandByte` runs on fuel.
-/

namespace GenericPS2Keyboard

/-! ## Constants -/

/-- Modelled from the spec: `kSC_Extend` is declared in a header that is not part of the
source tree; the extend prefix is the byte `0xE0`. -/
def kSC_Extend : Nat := 0xE0

/-- Modelled from the spec: `kSC_Pause` is declared in a header that is not part of the
source tree; the pause prefix is the byte `0xE1`. -/
def kSC_Pause : Nat := 0xE1

/-- Modelled from the spec: `kSC_UpBit` is declared in a header that is not part of the
source tree; the release flag is bit 7 of a scan byte. -/
def kSC_UpBit : Nat := 0x80

/-- The constant `kRemappedDeadKey` (line 46). -/
def kRemappedDeadKey : Nat := 0xa4

/-- The constant `kSpecialPrevious` (line 42). -/
def kSpecialPrevious : Nat := 0xa1

/-- The constant `kSpecialPlay` (line 43). -/
def kSpecialPlay : Nat := 0xa2

/-- The constant `kSpecialNext` (line 44). -/
def kSpecialNext : Nat := 0xa3

/-- The expression `scanCode & ~kSC_UpBit` (lines 318, 333): the operands are promoted to
32-bit integers, so the complement of `kSC_UpBit` is `0xFFFFFFFF xor kSC_UpBit`. -/
def stripUpBit (scanCode : Nat) : Nat := scanCode &&& (0xFFFFFFFF ^^^ kSC_UpBit)

/-- The expression `scanCode & kSC_UpBit` read as a C condition (lines 375, 394). -/
def hasUpBit (scanCode : Nat) : Bool := (scanCode &&& kSC_UpBit) != 0

/-! ## Key bit vector -/

/-- Modelled from the spec: the type of `_keyBitVector` is declared in a header that is
not part of the source tree; it holds one bit per logical key code, the current down/up
state of that key. -/
abbrev KeyBitVector := Nat → Bool

/-- Modelled from the spec: the macro `KBV_IS_KEYDOWN` is declared in a header that is
not part of the source tree; it tests the bit of key `n`. -/
def KBV_IS_KEYDOWN (n : Nat) (bits : KeyBitVector) : Bool := bits n

/-- Modelled from the spec: the macro `KBV_KEYDOWN` is declared in a header that is not
part of the source tree; it sets the bit of key `n` and no other. -/
def KBV_KEYDOWN (n : Nat) (bits : KeyBitVector) : KeyBitVector :=
  fun m => if m = n then true else bits m

/-- Modelled from the spec: the macro `KBV_KEYUP` is declared in a header that is not
part of the source tree; it clears the bit of key `n` and no other. -/
def KBV_KEYUP (n : Nat) (bits : KeyBitVector) : KeyBitVector :=
  fun m => if m = n then false else bits m

/-! ## Driver state, host and outcome -/

end GenericPS2Keyboard

/-- The member variables of the driver object that the decode path uses. -/
structure GenericPS2Keyboard where
  /-- Bytes still to come in an escape sequence (set in `init` to 0). -/
  _extendCount : Nat
  /-- Up/down state of every logical key. -/
  _keyBitVector : GenericPS2Keyboard.KeyBitVector
  /-- Property "Map capslock to keycode" (line 146), a 32-bit value. -/
  _capslockKeyCode : Nat
  /-- Property "Swap alt and windows key" (line 147). -/
  _windowsAltSwap : Bool
  /-- Property "Remap function keys" (line 148). -/
  _remapFunctionKeys : Bool
  /-- Whether the insert key, used as an fn key, is held (line 151). -/
  _insertKeyDown : Bool
  /-- Whether the application key, used as an fn key, is held (line 152). -/
  _applicationKeyDown : Bool

namespace GenericPS2Keyboard

/-- One call of `dispatchKeyboardEvent(keyCode, goingDown, timeStamp)`. -/
structure KeyEvent where
  keyCode : Nat
  goingDown : Bool
  timeStamp : Nat
deriving DecidableEq, Repr

/-- What the decode path consumes from outside the driver object. -/
structure Host where
  /-- The table `PS2ToADBMap`, declared in a header that is not part of the source tree. -/
  PS2ToADBMap : Nat → Nat
  /-- The value `clock_get_uptime` stores at its `k`-th call during one call of
  `dispatchKeyboardEventWithScancode` (`k = 0` at line 415, `k = 1` at line 463). -/
  clock_get_uptime : Nat → Nat
  /-- Whether `getPMRootDomain()` returns a root domain (line 377). -/
  rootDomain : Bool

/-- The state `init` and `start` leave behind for the decode path, for the given
configuration properties (lines 66-71 and 146-152). -/
def init (capslockKeyCode : Nat) (windowsAltSwap remapFunctionKeys : Bool) :
    GenericPS2Keyboard where
  _extendCount := 0
  _keyBitVector := fun _ => false
  _capslockKeyCode := capslockKeyCode
  _windowsAltSwap := windowsAltSwap
  _remapFunctionKeys := remapFunctionKeys
  _insertKeyDown := false
  _applicationKeyDown := false

/-- The result of lines 279-386: the escape counter afterwards, the key code the scan
code was converted to (`none` where the function has returned false already) and whether
`receivePowerNotification(kIOPMSleepNow)` was called. -/
structure Decoded where
  extendCount : Nat
  keyCode : Option Nat
  sleepNow : Bool
deriving DecidableEq, Repr

/-- The `switch` of lines 333-385 on `scanCode & ~kSC_UpBit`; `none` is the
`default: return false` arm, which the PrintScreen header `0x2A` falls into, and the
sleep code `0x5f` sets the key code to 0. -/
def extendedKeyCode (windowsAltSwap : Bool) (code : Nat) : Option Nat :=
  if code = 0x1D then some 0x60
  else if code = 0x38 then some 0x61
  else if code = 0x1C then some 0x62
  else if code = 0x35 then some 0x63
  else if code = 0x48 then some 0x64
  else if code = 0x50 then some 0x65
  else if code = 0x4B then some 0x66
  else if code = 0x4D then some 0x67
  else if code = 0x52 then some 0x68
  else if code = 0x53 then some 0x69
  else if code = 0x49 then some 0x6A
  else if code = 0x51 then some 0x6B
  else if code = 0x47 then some 0x6C
  else if code = 0x4F then some 0x6D
  else if code = 0x37 then some 0x6E
  else if code = 0x45 then some 0x6F
  else if code = 0x5D then some 0x72
  else if code = 0x5B then (if windowsAltSwap then some 0x38 else some 0x70)
  else if code = 0x5c then (if windowsAltSwap then some 0x6a else some 0x71)
  else if code = 0x30 then some 0x7d
  else if code = 0x2e then some 0x7e
  else if code = 0x20 then some 0x7f
  else if code = 0x5e then some 0x7c
  else if code = 0x5f then some 0
  else none

/-- Lines 279-386 of `dispatchKeyboardEventWithScancode`: the prefixes, the bare codes
of the Normal state and the escape sequences. -/
def scanCodeToKeyCode (host : Host) (kbd : GenericPS2Keyboard) (scanCode : Nat) : Decoded :=
  if scanCode = kSC_Extend then ⟨1, none, false⟩
  else if scanCode = kSC_Pause then ⟨2, none, false⟩
  else if kbd._extendCount = 0 then
    let keyCode := stripUpBit scanCode
    if keyCode = 0x38 then ⟨0, some (if kbd._windowsAltSwap then 0x70 else keyCode), false⟩
    else if keyCode = 0x6a then ⟨0, some (if kbd._windowsAltSwap then 0x71 else keyCode), false⟩
    else ⟨0, some keyCode, false⟩
  else
    let extendCount := kbd._extendCount - 1
    if extendCount ≠ 0 then ⟨extendCount, none, false⟩
    else
      ⟨extendCount, extendedKeyCode kbd._windowsAltSwap (stripUpBit scanCode),
        stripUpBit scanCode = 0x5f && !hasUpBit scanCode && host.rootDomain⟩

/-- The function `remapFunctionKeys` (lines 454-479): the code it returns and the events
it dispatches itself, stamped with its own reading of the clock. -/
def remapFunctionKeys (host : Host) (adbKeyCode : Nat) (goingDown : Bool) :
    Nat × List KeyEvent :=
  if adbKeyCode = 0x7a then (0x91, [])
  else if adbKeyCode = 0x78 then (0x90, [])
  else if adbKeyCode = 0x63 then
    let now := host.clock_get_uptime 1
    (kRemappedDeadKey, [⟨0x3e, goingDown, now⟩, ⟨0x7e, goingDown, now⟩])
  else if adbKeyCode = 0x76 then (0x6f, [])
  else if adbKeyCode = 0x62 then (kSpecialPrevious, [])
  else if adbKeyCode = 0x64 then (kSpecialPlay, [])
  else if adbKeyCode = 0x65 then (kSpecialNext, [])
  else if adbKeyCode = 0x6d then (0x4a, [])
  else if adbKeyCode = 0x67 then (0x49, [])
  else if adbKeyCode = 0x6f then (0x48, [])
  else (adbKeyCode, [])

/-- What one call of `dispatchKeyboardEventWithScancode` does. -/
structure Outcome where
  /-- The value returned. -/
  result : Bool
  /-- The driver object afterwards. -/
  kbd : GenericPS2Keyboard
  /-- The calls of `dispatchKeyboardEvent`, in order. -/
  events : List KeyEvent
  /-- Whether `receivePowerNotification(kIOPMSleepNow)` was called. -/
  sleepNow : Bool

/-- Lines 417-420: the table lookup and the caps-lock retarget, for the configured
caps-lock target `capslockKeyCode`. -/
def translatedKeyCode (host : Host) (capslockKeyCode : Nat) (keyCode : Nat) : Nat :=
  let adbKeyCode := host.PS2ToADBMap keyCode
  if adbKeyCode = 0x39 then capslockKeyCode else adbKeyCode

/-- Lines 415-451 of `dispatchKeyboardEventWithScancode`: delivery of an accepted
transition of `keyCode`; `kbd` is the driver object after the key bit vector update. -/
def deliver (host : Host) (kbd : GenericPS2Keyboard) (keyCode : Nat) (goingDown : Bool)
    (sleepNow : Bool) : Outcome :=
  let now := host.clock_get_uptime 0
  let adbKeyCode := translatedKeyCode host kbd._capslockKeyCode keyCode
  if kbd._remapFunctionKeys then
    if adbKeyCode = 0x72 then
      ⟨true, { kbd with _insertKeyDown := goingDown }, [], sleepNow⟩
    else if adbKeyCode = 0x6e then
      ⟨true, { kbd with _applicationKeyDown := goingDown }, [], sleepNow⟩
    else if !(kbd._insertKeyDown || kbd._applicationKeyDown) then
      let r := remapFunctionKeys host adbKeyCode goingDown
      if r.1 = kRemappedDeadKey then ⟨true, kbd, r.2, sleepNow⟩
      else ⟨true, kbd, r.2 ++ [⟨r.1, goingDown, now⟩], sleepNow⟩
    else ⟨true, kbd, [⟨adbKeyCode, goingDown, now⟩], sleepNow⟩
  else ⟨true, kbd, [⟨adbKeyCode, goingDown, now⟩], sleepNow⟩

/-- The function `dispatchKeyboardEventWithScancode` (lines 261-452). -/
def dispatchKeyboardEventWithScancode (host : Host) (kbd : GenericPS2Keyboard)
    (scanCode : Nat) : Outcome :=
  let d := scanCodeToKeyCode host kbd scanCode
  let kbd1 := { kbd with _extendCount := d.extendCount }
  match d.keyCode with
  | none => ⟨false, kbd1, [], d.sleepNow⟩
  | some keyCode =>
    if keyCode = 0 then ⟨false, kbd1, [], d.sleepNow⟩
    else
      let goingDown := !hasUpBit scanCode
      if goingDown then
        if KBV_IS_KEYDOWN keyCode kbd1._keyBitVector then ⟨false, kbd1, [], d.sleepNow⟩
        else
          deliver host { kbd1 with _keyBitVector := KBV_KEYDOWN keyCode kbd1._keyBitVector }
            keyCode goingDown d.sleepNow
      else
        deliver host { kbd1 with _keyBitVector := KBV_KEYUP keyCode kbd1._keyBitVector }
          keyCode goingDown d.sleepNow

/-- Feeding a stream of scan codes, one call per byte: the values returned, in order, and
the driver object at the end. -/
def feed (host : Host) (kbd : GenericPS2Keyboard) : List Nat → List Bool × GenericPS2Keyboard
  | [] => ([], kbd)
  | scanCode :: rest =>
    let o := dispatchKeyboardEventWithScancode host kbd scanCode
    let r := feed host o.kbd rest
    (o.result :: r.1, r.2)

/-- The driver object with the escape counter the conversion leaves behind. -/
def afterConversion (host : Host) (kbd : GenericPS2Keyboard) (scanCode : Nat) :
    GenericPS2Keyboard :=
  { kbd with _extendCount := (scanCodeToKeyCode host kbd scanCode).extendCount }

/-- The call reaches line 411 with key code `c`: the scan code converts to the nonzero
key code `c` (line 388) and is not discarded as an autorepeated make (line 402). -/
def Accepted (host : Host) (kbd : GenericPS2Keyboard) (scanCode c : Nat) : Prop :=
  (scanCodeToKeyCode host kbd scanCode).keyCode = some c ∧ c ≠ 0
    ∧ (hasUpBit scanCode = true ∨ KBV_IS_KEYDOWN c kbd._keyBitVector = false)

instance instDecidableAccepted (host : Host) (kbd : GenericPS2Keyboard) (scanCode c : Nat) :
    Decidable (Accepted host kbd scanCode c) := by
  unfold Accepted
  infer_instance

/-- The key bit vector after an accepted transition of `c` (lines 396-409). -/
def updatedKeyBitVector (kbd : GenericPS2Keyboard) (scanCode c : Nat) : KeyBitVector :=
  if hasUpBit scanCode then KBV_KEYUP c kbd._keyBitVector
  else KBV_KEYDOWN c kbd._keyBitVector

/-- An example state: all keys up, the extend prefix just consumed, with the given
configuration. -/
def extendPending (capslockKeyCode : Nat) (windowsAltSwap remapFunctionKeys : Bool) :
    GenericPS2Keyboard :=
  { init capslockKeyCode windowsAltSwap remapFunctionKeys with _extendCount := 1 }

/-- An example host: the identity translation table, a clock that advances by one tick
per reading from 1000, and a power root domain. -/
def exampleHost : Host where
  PS2ToADBMap := fun k => k
  clock_get_uptime := fun k => 1000 + k
  rootDomain := true

/-- The low-seven-bit codes to which the `switch` of lines 333-385 assigns a key code
(lines 335-373); the label `0x2A` of line 383 shares the `default` arm. -/
def extendedTableCodes : List Nat :=
  [0x1D, 0x38, 0x1C, 0x35, 0x48, 0x50, 0x4B, 0x4D, 0x52, 0x53, 0x49, 0x51, 0x47, 0x4F,
   0x37, 0x45, 0x5D, 0x5B, 0x5c, 0x30, 0x2e, 0x20, 0x5e, 0x5f]

/-! ## Controller requests, LEDs and the command byte -/

/-- The numeric constants of the controller and keyboard headers, which are not part of
the source tree; every function below takes them as a parameter. -/
structure Constants where
  kCP_GetCommandByte : Nat
  kCP_SetCommandByte : Nat
  kCB_EnableKeyboardIRQ : Nat
  kCB_DisableKeyboardClock : Nat
  kCB_TranslateMode : Nat
  kDP_SetKeyboardLEDs : Nat
  kDP_Enable : Nat
  kDP_SetDefaultsAndDisable : Nat
  kSC_Acknowledge : Nat
  kSC_Resend : Nat
  kLED_CapsLock : Nat
  kLED_NumLock : Nat
  kPS2C_DisableDevice : Nat
  kPS2C_EnableDevice : Nat
deriving DecidableEq, Repr

/-- An example: the values these constants have on the standard PC keyboard controller. -/
def exampleConstants : Constants where
  kCP_GetCommandByte := 0x20
  kCP_SetCommandByte := 0x60
  kCB_EnableKeyboardIRQ := 0x01
  kCB_DisableKeyboardClock := 0x10
  kCB_TranslateMode := 0x40
  kDP_SetKeyboardLEDs := 0xED
  kDP_Enable := 0xF4
  kDP_SetDefaultsAndDisable := 0xF5
  kSC_Acknowledge := 0xFA
  kSC_Resend := 0xFE
  kLED_CapsLock := 0x04
  kLED_NumLock := 0x02
  kPS2C_DisableDevice := 0
  kPS2C_EnableDevice := 1

/-- The kinds of step of a request (`request->commands[i].command`). -/
inductive PS2CommandKind where
  | kPS2C_ReadDataPort
  | kPS2C_ReadDataPortAndCompare
  | kPS2C_WriteDataPort
  | kPS2C_WriteCommandPort
deriving DecidableEq, Repr

/-- One step of a request: `commands[i].command` and `commands[i].inOrOut`. -/
structure PS2Command where
  command : PS2CommandKind
  inOrOut : Nat
deriving DecidableEq, Repr

/-- A request: the steps filled in and `commandsCount`. -/
structure PS2Request where
  commands : List PS2Command
  commandsCount : Nat
deriving DecidableEq, Repr

/-- The request `setLEDs` submits asynchronously (lines 511-532). -/
def setLEDs (K : Constants) (ledState : Nat) : PS2Request where
  commands :=
    [⟨.kPS2C_WriteDataPort, K.kDP_SetKeyboardLEDs⟩,
     ⟨.kPS2C_ReadDataPortAndCompare, K.kSC_Acknowledge⟩,
     ⟨.kPS2C_WriteDataPort, ledState⟩,
     ⟨.kPS2C_ReadDataPortAndCompare, K.kSC_Acknowledge⟩]
  commandsCount := 4

/-- The request `setKeyboardEnable` submits asynchronously (lines 536-556). -/
def setKeyboardEnable (K : Constants) (enable : Bool) : PS2Request where
  commands :=
    [⟨.kPS2C_WriteDataPort, if enable then K.kDP_Enable else K.kDP_SetDefaultsAndDisable⟩,
     ⟨.kPS2C_ReadDataPortAndCompare, K.kSC_Acknowledge⟩]
  commandsCount := 2

/-- The 8-bit value of `bits & ~mask`: the operands are promoted to 32-bit integers and
the result is stored in a `UInt8`. -/
def clearBits8 (bits mask : Nat) : Nat := (bits &&& (0xFFFFFFFF ^^^ mask)) % 256

/-- The 8-bit value of `bits | mask`, stored in a `UInt8`. -/
def setBits8 (bits mask : Nat) : Nat := (bits ||| mask) % 256

/-- The function `setAlphaLockFeedback` (lines 483-493) on the member `_ledState`: the
new `_ledState` and the request submitted asynchronously. -/
def setAlphaLockFeedback (K : Constants) (_ledState : Nat) (locked : Bool) :
    Nat × List PS2Request :=
  let ledState := if locked then setBits8 _ledState K.kLED_CapsLock
    else clearBits8 _ledState K.kLED_CapsLock
  (ledState, [setLEDs K ledState])

/-- The function `setNumLockFeedback` (lines 497-507) on the member `_ledState`: the new
`_ledState` and the request submitted asynchronously. -/
def setNumLockFeedback (K : Constants) (_ledState : Nat) (locked : Bool) :
    Nat × List PS2Request :=
  let ledState := if locked then setBits8 _ledState K.kLED_NumLock
    else clearBits8 _ledState K.kLED_NumLock
  (ledState, [setLEDs K ledState])

/-- The calls a driver operation makes to the three device-facing member functions. -/
inductive DriverCall where
  | setLEDs (ledState : Nat)
  | setCommandByte (setBits clearBits : Nat)
  | setKeyboardEnable (enable : Bool)
deriving DecidableEq, Repr

/-- The function `setDevicePowerState` (lines 729-769): the device-facing calls it makes,
in order, for the member `_ledState` and the argument `whatToDo`. -/
def setDevicePowerState (K : Constants) (_ledState : Nat) (whatToDo : Nat) : List DriverCall :=
  if whatToDo = K.kPS2C_DisableDevice then [.setKeyboardEnable false]
  else if whatToDo = K.kPS2C_EnableDevice then
    [.setLEDs _ledState,
     .setCommandByte (K.kCB_EnableKeyboardIRQ ||| K.kCB_TranslateMode) K.kCB_DisableKeyboardClock,
     .setKeyboardEnable true]
  else []

/-- The function `stop` (lines 194-239): the device-facing calls it makes, in order. -/
def stop (K : Constants) : List DriverCall :=
  [.setKeyboardEnable false,
   .setCommandByte K.kCB_DisableKeyboardClock K.kCB_EnableKeyboardIRQ]

/-- Modelled from the spec: the controller behind `submitRequestAndBlock` is not part of
the source tree. It holds the command byte register; a write of `kCP_GetCommandByte` to
the command port makes the data port report the register, and a write of
`kCP_SetCommandByte` makes the controller take the next data port write as the new
register value. -/
structure Controller where
  commandByte : Nat
  dataPort : Nat
  takesCommandByte : Bool
deriving DecidableEq, Repr

/-- Modelled from the spec: one step of a request against the controller; `none` when a
read-and-compare step finds a byte other than the expected one, otherwise the controller
afterwards and the step with the byte read stored in it. -/
def Controller.step (K : Constants) (ctl : Controller) (cmd : PS2Command) :
    Option (Controller × PS2Command) :=
  match cmd.command with
  | .kPS2C_WriteCommandPort =>
    some ({ ctl with
            dataPort := if cmd.inOrOut = K.kCP_GetCommandByte then ctl.commandByte
              else ctl.dataPort
            takesCommandByte := decide (cmd.inOrOut = K.kCP_SetCommandByte) }, cmd)
  | .kPS2C_ReadDataPort => some (ctl, { cmd with inOrOut := ctl.dataPort })
  | .kPS2C_ReadDataPortAndCompare => if ctl.dataPort = cmd.inOrOut then some (ctl, cmd) else none
  | .kPS2C_WriteDataPort =>
    some (if ctl.takesCommandByte then
            { ctl with commandByte := cmd.inOrOut, takesCommandByte := false }
          else ctl, cmd)

/-- Modelled from the spec: the steps of a request in order, stopping at a failed
comparison; the controller afterwards, the steps with the bytes read, and the number of
steps completed. -/
def Controller.run (K : Constants) (ctl : Controller) :
    List PS2Command → Controller × List PS2Command × Nat
  | [] => (ctl, [], 0)
  | cmd :: rest =>
    match Controller.step K ctl cmd with
    | none => (ctl, cmd :: rest, 0)
    | some (ctl', cmd') =>
      let r := Controller.run K ctl' rest
      (r.1, cmd' :: r.2.1, r.2.2 + 1)

/-- Modelled from the spec: `submitRequestAndBlock`, which is not part of the source
tree; the steps run to completion or to the first failed comparison, and `commandsCount`
is left at the number of steps completed. -/
def submitRequestAndBlock (K : Constants) (ctl : Controller) (request : PS2Request) :
    Controller × PS2Request :=
  let r := Controller.run K ctl (request.commands.take request.commandsCount)
  (r.1, ⟨r.2.1 ++ request.commands.drop request.commandsCount, r.2.2⟩)

/-- Writes to the command byte register by other parties, in order. -/
def externalWrites (ctl : Controller) : List Nat → Controller
  | [] => ctl
  | v :: rest => externalWrites { ctl with commandByte := v } rest

/-- The expression `(commandByte | setBits) & (~clearBits)` stored in the `UInt8`
`commandByteNew` (line 589). -/
def commandByteNew (commandByte setBits clearBits : Nat) : Nat :=
  ((commandByte ||| setBits) &&& (0xFFFFFFFF ^^^ clearBits)) % 256

/-- The request of lines 577-581, which reads the command byte. -/
def readCommandByteRequest (K : Constants) : PS2Request where
  commands := [⟨.kPS2C_WriteCommandPort, K.kCP_GetCommandByte⟩, ⟨.kPS2C_ReadDataPort, 0⟩]
  commandsCount := 2

/-- The request of lines 592-600, the "test-and-set" of the command byte. -/
def testAndSetRequest (K : Constants) (commandByte setBits clearBits : Nat) : PS2Request where
  commands :=
    [⟨.kPS2C_WriteCommandPort, K.kCP_GetCommandByte⟩,
     ⟨.kPS2C_ReadDataPortAndCompare, commandByte⟩,
     ⟨.kPS2C_WriteCommandPort, K.kCP_SetCommandByte⟩,
     ⟨.kPS2C_WriteDataPort, commandByteNew commandByte setBits clearBits⟩]
  commandsCount := 4

/-- What one pass through the body of the loop of `setCommandByte` did. -/
structure Iteration where
  /-- The byte read (line 588). -/
  commandByte : Nat
  /-- The test-and-set request as submitted (lines 592-601). -/
  request : PS2Request
  /-- The register immediately before the test-and-set request. -/
  before : Nat
  /-- The register immediately after the test-and-set request. -/
  after : Nat
  /-- The member `commandsCount` after the test-and-set request (line 608). -/
  commandsCount : Nat
deriving DecidableEq, Repr

/-- The body of the loop of `setCommandByte` (lines 576-601); `writes` are the writes
other parties make to the register between the read and the test-and-set request. -/
def setCommandByteBody (K : Constants) (setBits clearBits : Nat) (ctl : Controller)
    (writes : List Nat) : Controller × Iteration :=
  let r1 := submitRequestAndBlock K ctl (readCommandByteRequest K)
  let commandByte := (r1.2.commands.getD 1 ⟨.kPS2C_ReadDataPort, 0⟩).inOrOut
  let request := testAndSetRequest K commandByte setBits clearBits
  let ctl2 := externalWrites r1.1 writes
  let r2 := submitRequestAndBlock K ctl2 request
  (r2.1, ⟨commandByte, request, ctl2.commandByte, r2.1.commandByte, r2.2.commandsCount⟩)

/-- The function `setCommandByte` (lines 560-611), for at most `fuel` passes through its
loop; the `k`-th element of `schedule` is the writes of other parties during the `k`-th
pass, and past the end of `schedule` there are none. The result is the controller
afterwards and the passes made, in order; `none` when the fuel runs out. -/
def setCommandByte (K : Constants) (setBits clearBits : Nat) :
    Nat → Controller → List (List Nat) → Option (Controller × List Iteration)
  | 0, _, _ => none
  | fuel + 1, ctl, schedule =>
    let r := setCommandByteBody K setBits clearBits ctl (schedule.headD [])
    if r.2.commandsCount ≠ 4 then
      match setCommandByte K setBits clearBits fuel r.1 schedule.tail with
      | none => none
      | some (ctl', passes) => some (ctl', r.2 :: passes)
    else some (r.1, [r.2])

/-! ## Byte streams and the interrupt action -/

/-- Feeding a stream of scan codes, one call per byte: the events each call delivers,
in order. -/
def feedEvents (host : Host) (kbd : GenericPS2Keyboard) : List Nat → List (List KeyEvent)
  | [] => []
  | scanCode :: rest =>
    let o := dispatchKeyboardEventWithScancode host kbd scanCode
    o.events :: feedEvents host o.kbd rest

/-- The condition of line 436 that keeps the function-key overlay off: one of the two
keys used as fn keys is held. -/
def latchHeld (kbd : GenericPS2Keyboard) : Bool :=
  kbd._insertKeyDown || kbd._applicationKeyDown

/-- What one call of `interruptOccurred` does. -/
structure InterruptOutcome where
  /-- The driver object afterwards. -/
  kbd : GenericPS2Keyboard
  /-- The calls of `dispatchKeyboardEvent`, in order. -/
  events : List KeyEvent
  /-- Whether `receivePowerNotification(kIOPMSleepNow)` was called. -/
  sleepNow : Bool
  /-- Whether a line was written with `IOLog`. -/
  logged : Bool

/-- The function `interruptOccurred` (lines 243-257). -/
def interruptOccurred (K : Constants) (host : Host) (kbd : GenericPS2Keyboard)
    (scanCode : Nat) : InterruptOutcome :=
  if scanCode = K.kSC_Acknowledge then ⟨kbd, [], false, true⟩
  else if scanCode = K.kSC_Resend then ⟨kbd, [], false, true⟩
  else
    let o := dispatchKeyboardEventWithScancode host kbd scanCode
    ⟨o.kbd, o.events, o.sleepNow, false⟩

/-! ## Shared lemmas: delivery -/

theorem deliver_result (host : Host) (kbd : GenericPS2Keyboard) (keyCode : Nat)
    (goingDown sleepNow : Bool) :
    (deliver host kbd keyCode goingDown sleepNow).result = true := by
  unfold deliver
  dsimp only
  split_ifs <;> rfl

theorem deliver_sleepNow (host : Host) (kbd : GenericPS2Keyboard) (keyCode : Nat)
    (goingDown sleepNow : Bool) :
    (deliver host kbd keyCode goingDown sleepNow).sleepNow = sleepNow := by
  unfold deliver
  dsimp only
  split_ifs <;> rfl

theorem deliver_extendCount (host : Host) (kbd : GenericPS2Keyboard) (keyCode : Nat)
    (goingDown sleepNow : Bool) :
    (deliver host kbd keyCode goingDown sleepNow).kbd._extendCount = kbd._extendCount := by
  unfold deliver
  dsimp only
  split_ifs <;> rfl

theorem deliver_keyBitVector (host : Host) (kbd : GenericPS2Keyboard) (keyCode : Nat)
    (goingDown sleepNow : Bool) :
    (deliver host kbd keyCode goingDown sleepNow).kbd._keyBitVector = kbd._keyBitVector := by
  unfold deliver
  dsimp only
  split_ifs <;> rfl

theorem deliver_capslockKeyCode (host : Host) (kbd : GenericPS2Keyboard) (keyCode : Nat)
    (goingDown sleepNow : Bool) :
    (deliver host kbd keyCode goingDown sleepNow).kbd._capslockKeyCode
      = kbd._capslockKeyCode := by
  unfold deliver
  dsimp only
  split_ifs <;> rfl

theorem deliver_windowsAltSwap (host : Host) (kbd : GenericPS2Keyboard) (keyCode : Nat)
    (goingDown sleepNow : Bool) :
    (deliver host kbd keyCode goingDown sleepNow).kbd._windowsAltSwap
      = kbd._windowsAltSwap := by
  unfold deliver
  dsimp only
  split_ifs <;> rfl

theorem deliver_remapFunctionKeys (host : Host) (kbd : GenericPS2Keyboard) (keyCode : Nat)
    (goingDown sleepNow : Bool) :
    (deliver host kbd keyCode goingDown sleepNow).kbd._remapFunctionKeys
      = kbd._remapFunctionKeys := by
  unfold deliver
  dsimp only
  split_ifs <;> rfl

/-! ## Shared lemmas: one call, by what the scan code converts to -/

theorem dispatch_of_none (host : Host) (kbd : GenericPS2Keyboard) (scanCode : Nat)
    (h : (scanCodeToKeyCode host kbd scanCode).keyCode = none) :
    dispatchKeyboardEventWithScancode host kbd scanCode
      = ⟨false, afterConversion host kbd scanCode, [],
          (scanCodeToKeyCode host kbd scanCode).sleepNow⟩ := by
  simp only [dispatchKeyboardEventWithScancode, h, afterConversion]

theorem dispatch_of_zero (host : Host) (kbd : GenericPS2Keyboard) (scanCode : Nat)
    (h : (scanCodeToKeyCode host kbd scanCode).keyCode = some 0) :
    dispatchKeyboardEventWithScancode host kbd scanCode
      = ⟨false, afterConversion host kbd scanCode, [],
          (scanCodeToKeyCode host kbd scanCode).sleepNow⟩ := by
  simp [dispatchKeyboardEventWithScancode, h, afterConversion]

theorem dispatch_make_of_down (host : Host) (kbd : GenericPS2Keyboard) (scanCode c : Nat)
    (h : (scanCodeToKeyCode host kbd scanCode).keyCode = some c) (hc : c ≠ 0)
    (hmake : hasUpBit scanCode = false)
    (hdown : KBV_IS_KEYDOWN c kbd._keyBitVector = true) :
    dispatchKeyboardEventWithScancode host kbd scanCode
      = ⟨false, afterConversion host kbd scanCode, [],
          (scanCodeToKeyCode host kbd scanCode).sleepNow⟩ := by
  simp [dispatchKeyboardEventWithScancode, h, hc, hmake, hdown, afterConversion]

theorem dispatch_make_of_up (host : Host) (kbd : GenericPS2Keyboard) (scanCode c : Nat)
    (h : (scanCodeToKeyCode host kbd scanCode).keyCode = some c) (hc : c ≠ 0)
    (hmake : hasUpBit scanCode = false)
    (hup : KBV_IS_KEYDOWN c kbd._keyBitVector = false) :
    dispatchKeyboardEventWithScancode host kbd scanCode
      = deliver host
          { afterConversion host kbd scanCode with
            _keyBitVector := KBV_KEYDOWN c kbd._keyBitVector }
          c true (scanCodeToKeyCode host kbd scanCode).sleepNow := by
  simp [dispatchKeyboardEventWithScancode, h, hc, hmake, hup, afterConversion]

theorem dispatch_break (host : Host) (kbd : GenericPS2Keyboard) (scanCode c : Nat)
    (h : (scanCodeToKeyCode host kbd scanCode).keyCode = some c) (hc : c ≠ 0)
    (hbreak : hasUpBit scanCode = true) :
    dispatchKeyboardEventWithScancode host kbd scanCode
      = deliver host
          { afterConversion host kbd scanCode with
            _keyBitVector := KBV_KEYUP c kbd._keyBitVector }
          c false (scanCodeToKeyCode host kbd scanCode).sleepNow := by
  simp [dispatchKeyboardEventWithScancode, h, hc, hbreak, afterConversion]

/-- The configuration fields are never written by the decode path. -/
theorem dispatch_config (host : Host) (kbd : GenericPS2Keyboard) (scanCode : Nat) :
    (dispatchKeyboardEventWithScancode host kbd scanCode).kbd._windowsAltSwap
        = kbd._windowsAltSwap
      ∧ (dispatchKeyboardEventWithScancode host kbd scanCode).kbd._remapFunctionKeys
        = kbd._remapFunctionKeys
      ∧ (dispatchKeyboardEventWithScancode host kbd scanCode).kbd._capslockKeyCode
        = kbd._capslockKeyCode := by
  unfold dispatchKeyboardEventWithScancode
  dsimp only
  split
  · exact ⟨rfl, rfl, rfl⟩
  · split_ifs <;>
      simp only [deliver_windowsAltSwap, deliver_remapFunctionKeys, deliver_capslockKeyCode,
        and_self]

/-- The escape counter after a call is the one the conversion leaves behind. -/
theorem dispatch_extendCount (host : Host) (kbd : GenericPS2Keyboard) (scanCode : Nat) :
    (dispatchKeyboardEventWithScancode host kbd scanCode).kbd._extendCount
      = (scanCodeToKeyCode host kbd scanCode).extendCount := by
  unfold dispatchKeyboardEventWithScancode
  dsimp only
  split
  · rfl
  · split_ifs <;> simp only [deliver_extendCount]

/-! ## Shared lemmas: bytes, prefixes and the conversion -/

set_option maxRecDepth 100000 in
/-- For a byte, stripping the release flag leaves the low seven bits. -/
theorem stripUpBit_eq_mod : ∀ scanCode, scanCode < 256 → stripUpBit scanCode = scanCode % 128 := by
  decide

set_option maxRecDepth 100000 in
/-- For a byte, the release flag is set exactly from 128 on. -/
theorem hasUpBit_eq : ∀ scanCode, scanCode < 256 → hasUpBit scanCode = decide (128 ≤ scanCode) := by
  decide

/-- What a call on a prefix byte does. -/
theorem dispatch_escape_bytes (host : Host) (kbd : GenericPS2Keyboard) :
    dispatchKeyboardEventWithScancode host kbd 0xE0
        = ⟨false, { kbd with _extendCount := 1 }, [], false⟩
      ∧ dispatchKeyboardEventWithScancode host kbd 0xE1
        = ⟨false, { kbd with _extendCount := 2 }, [], false⟩ := by
  constructor <;>
    simp [dispatchKeyboardEventWithScancode, scanCodeToKeyCode, kSC_Extend, kSC_Pause]

/-- The conversion reads only the escape counter and the alt/windows swap option. -/
theorem scanCodeToKeyCode_congr (host : Host) (kbd kbd' : GenericPS2Keyboard) (scanCode : Nat)
    (hx : kbd'._extendCount = kbd._extendCount)
    (hs : kbd'._windowsAltSwap = kbd._windowsAltSwap) :
    scanCodeToKeyCode host kbd' scanCode = scanCodeToKeyCode host kbd scanCode := by
  simp only [scanCodeToKeyCode, hx, hs]

/-- The conversion in the Normal state. -/
theorem scanCodeToKeyCode_normal (host : Host) (kbd : GenericPS2Keyboard) (scanCode : Nat)
    (hx : kbd._extendCount = 0) (hE : scanCode ≠ 0xE0) (hP : scanCode ≠ 0xE1) :
    scanCodeToKeyCode host kbd scanCode
      = ⟨0, some (if stripUpBit scanCode = 0x38 then
                    (if kbd._windowsAltSwap then 0x70 else 0x38)
                  else if stripUpBit scanCode = 0x6a then
                    (if kbd._windowsAltSwap then 0x71 else 0x6a)
                  else stripUpBit scanCode), false⟩ := by
  simp only [scanCodeToKeyCode, kSC_Extend, kSC_Pause, hE, hP, hx, if_true, if_false]
  split_ifs <;> simp_all

/-- The conversion one byte before the end of an escape sequence. -/
theorem scanCodeToKeyCode_extended (host : Host) (kbd : GenericPS2Keyboard) (scanCode : Nat)
    (hx : kbd._extendCount = 1) (hE : scanCode ≠ 0xE0) (hP : scanCode ≠ 0xE1) :
    scanCodeToKeyCode host kbd scanCode
      = ⟨0, extendedKeyCode kbd._windowsAltSwap (stripUpBit scanCode),
          stripUpBit scanCode = 0x5f && !hasUpBit scanCode && host.rootDomain⟩ := by
  simp [scanCodeToKeyCode, kSC_Extend, kSC_Pause, hE, hP, hx]

/-- A scan code that converts to a key code is no prefix, arrives in the Normal state or
one byte before the end of an escape sequence, and leaves the decoder in Normal. -/
theorem of_keyCode_eq_some (host : Host) (kbd : GenericPS2Keyboard) (scanCode c : Nat)
    (h : (scanCodeToKeyCode host kbd scanCode).keyCode = some c) :
    scanCode ≠ 0xE0 ∧ scanCode ≠ 0xE1
      ∧ (kbd._extendCount = 0 ∨ kbd._extendCount = 1)
      ∧ (scanCodeToKeyCode host kbd scanCode).extendCount = 0 := by
  unfold scanCodeToKeyCode at h ⊢
  simp only [kSC_Extend, kSC_Pause] at h ⊢
  split_ifs at h ⊢ <;> simp_all
  omega

/-- What a call does on an accepted transition. -/
theorem dispatch_of_accepted (host : Host) (kbd : GenericPS2Keyboard) (scanCode c : Nat)
    (h : Accepted host kbd scanCode c) :
    dispatchKeyboardEventWithScancode host kbd scanCode
      = deliver host
          { kbd with _extendCount := 0, _keyBitVector := updatedKeyBitVector kbd scanCode c }
          c (!hasUpBit scanCode) (scanCodeToKeyCode host kbd scanCode).sleepNow := by
  obtain ⟨h1, h2, h3⟩ := h
  have hx := (of_keyCode_eq_some host kbd scanCode c h1).2.2.2
  cases hb : hasUpBit scanCode with
  | true =>
    rw [dispatch_break host kbd scanCode c h1 h2 hb]
    simp [afterConversion, hx, updatedKeyBitVector, hb]
  | false =>
    have hup : KBV_IS_KEYDOWN c kbd._keyBitVector = false := by
      rcases h3 with h3 | h3
      · rw [hb] at h3; cases h3
      · exact h3
    rw [dispatch_make_of_up host kbd scanCode c h1 h2 hb hup]
    simp [afterConversion, hx, updatedKeyBitVector, hb]

/-! ## Shared lemmas: the key bit vector across a call -/

/-- After a make that converts to `c`, accepted or not, the bit of `c` is set, and the
call returns true exactly when the bit was clear before. -/
theorem dispatch_make (host : Host) (kbd : GenericPS2Keyboard) (scanCode c : Nat)
    (h : (scanCodeToKeyCode host kbd scanCode).keyCode = some c) (hc : c ≠ 0)
    (hmake : hasUpBit scanCode = false) :
    (dispatchKeyboardEventWithScancode host kbd scanCode).result
        = !KBV_IS_KEYDOWN c kbd._keyBitVector
      ∧ KBV_IS_KEYDOWN c (dispatchKeyboardEventWithScancode host kbd scanCode).kbd._keyBitVector
        = true := by
  cases hd : KBV_IS_KEYDOWN c kbd._keyBitVector with
  | true =>
    rw [dispatch_make_of_down host kbd scanCode c h hc hmake hd]
    exact ⟨rfl, hd⟩
  | false =>
    rw [dispatch_make_of_up host kbd scanCode c h hc hmake hd, deliver_result,
      deliver_keyBitVector]
    simp [KBV_IS_KEYDOWN, KBV_KEYDOWN]

/-- After a break that converts to `c` the bit of `c` is clear, and the call returns
true. -/
theorem dispatch_break_bit (host : Host) (kbd : GenericPS2Keyboard) (scanCode c : Nat)
    (h : (scanCodeToKeyCode host kbd scanCode).keyCode = some c) (hc : c ≠ 0)
    (hbreak : hasUpBit scanCode = true) :
    (dispatchKeyboardEventWithScancode host kbd scanCode).result = true
      ∧ (dispatchKeyboardEventWithScancode host kbd scanCode).kbd._keyBitVector
        = KBV_KEYUP c kbd._keyBitVector := by
  rw [dispatch_break host kbd scanCode c h hc hbreak, deliver_result, deliver_keyBitVector]
  exact ⟨rfl, rfl⟩

/-- A scan code that converts to a nonzero key code requests no power notification. -/
theorem sleepNow_of_keyCode_ne_zero (host : Host) (kbd : GenericPS2Keyboard)
    (scanCode c : Nat) (h : (scanCodeToKeyCode host kbd scanCode).keyCode = some c)
    (hc : c ≠ 0) : (scanCodeToKeyCode host kbd scanCode).sleepNow = false := by
  obtain ⟨hE, hP, hx, -⟩ := of_keyCode_eq_some host kbd scanCode c h
  rcases hx with hx | hx
  · rw [scanCodeToKeyCode_normal host kbd scanCode hx hE hP]
  · rw [scanCodeToKeyCode_extended host kbd scanCode hx hE hP] at h ⊢
    by_cases h5 : stripUpBit scanCode = 0x5f
    · rw [h5] at h
      simp [extendedKeyCode] at h
      exact absurd h.symm hc
    · simp [h5]

/-! ## Shared lemmas: steps of a byte stream -/

/-- One make of `c` from a state that decodes as `kbd` does: it is accepted exactly when
the bit of `c` is clear, sets the bit and leaves the decoder in Normal. -/
theorem step_make (host : Host) (kbd : GenericPS2Keyboard) (scanCode c : Nat)
    (h : (scanCodeToKeyCode host kbd scanCode).keyCode = some c) (hc : c ≠ 0)
    (hmake : hasUpBit scanCode = false) (kbd' : GenericPS2Keyboard)
    (hx : kbd'._extendCount = kbd._extendCount)
    (hs : kbd'._windowsAltSwap = kbd._windowsAltSwap) :
    (dispatchKeyboardEventWithScancode host kbd' scanCode).result
        = !KBV_IS_KEYDOWN c kbd'._keyBitVector
      ∧ KBV_IS_KEYDOWN c (dispatchKeyboardEventWithScancode host kbd' scanCode).kbd._keyBitVector
        = true
      ∧ (dispatchKeyboardEventWithScancode host kbd' scanCode).kbd._extendCount = 0
      ∧ (dispatchKeyboardEventWithScancode host kbd' scanCode).kbd._windowsAltSwap
        = kbd._windowsAltSwap := by
  have e := scanCodeToKeyCode_congr host kbd kbd' scanCode hx hs
  have h' : (scanCodeToKeyCode host kbd' scanCode).keyCode = some c := by rw [e]; exact h
  obtain ⟨r, b⟩ := dispatch_make host kbd' scanCode c h' hc hmake
  refine ⟨r, b, ?_, ?_⟩
  · rw [dispatch_extendCount]
    exact (of_keyCode_eq_some host kbd' scanCode c h').2.2.2
  · rw [(dispatch_config host kbd' scanCode).1, hs]

/-- One break of `c` from a state that decodes as `kbd` does: it is accepted, clears the
bit and leaves the decoder in Normal. -/
theorem step_break (host : Host) (kbd : GenericPS2Keyboard) (scanCode c : Nat)
    (h : (scanCodeToKeyCode host kbd scanCode).keyCode = some c) (hc : c ≠ 0)
    (hbreak : hasUpBit scanCode = true) (kbd' : GenericPS2Keyboard)
    (hx : kbd'._extendCount = kbd._extendCount)
    (hs : kbd'._windowsAltSwap = kbd._windowsAltSwap) :
    (dispatchKeyboardEventWithScancode host kbd' scanCode).result = true
      ∧ KBV_IS_KEYDOWN c (dispatchKeyboardEventWithScancode host kbd' scanCode).kbd._keyBitVector
        = false
      ∧ (dispatchKeyboardEventWithScancode host kbd' scanCode).kbd._extendCount = 0
      ∧ (dispatchKeyboardEventWithScancode host kbd' scanCode).kbd._windowsAltSwap
        = kbd._windowsAltSwap := by
  have e := scanCodeToKeyCode_congr host kbd kbd' scanCode hx hs
  have h' : (scanCodeToKeyCode host kbd' scanCode).keyCode = some c := by rw [e]; exact h
  obtain ⟨r, b⟩ := dispatch_break_bit host kbd' scanCode c h' hc hbreak
  refine ⟨r, ?_, ?_, ?_⟩
  · rw [b]
    simp [KBV_IS_KEYDOWN, KBV_KEYUP]
  · rw [dispatch_extendCount]
    exact (of_keyCode_eq_some host kbd' scanCode c h').2.2.2
  · rw [(dispatch_config host kbd' scanCode).1, hs]

/-- The extend prefix from any state: rejected, the key bits kept, the decoder left in
ExtendPending. -/
theorem step_extend (host : Host) (kbd' : GenericPS2Keyboard) (c : Nat) :
    (dispatchKeyboardEventWithScancode host kbd' 0xE0).result = false
      ∧ KBV_IS_KEYDOWN c (dispatchKeyboardEventWithScancode host kbd' 0xE0).kbd._keyBitVector
        = KBV_IS_KEYDOWN c kbd'._keyBitVector
      ∧ (dispatchKeyboardEventWithScancode host kbd' 0xE0).kbd._extendCount = 1
      ∧ (dispatchKeyboardEventWithScancode host kbd' 0xE0).kbd._windowsAltSwap
        = kbd'._windowsAltSwap := by
  rw [(dispatch_escape_bytes host kbd').1]
  exact ⟨rfl, rfl, rfl, rfl⟩

theorem feed_cons (host : Host) (kbd : GenericPS2Keyboard) (a : Nat) (rest : List Nat) :
    (feed host kbd (a :: rest)).1
      = (dispatchKeyboardEventWithScancode host kbd a).result
        :: (feed host (dispatchKeyboardEventWithScancode host kbd a).kbd rest).1 := rfl

theorem feed_nil (host : Host) (kbd : GenericPS2Keyboard) : (feed host kbd []).1 = [] := rfl

/-! ## Claims C1 - C4: escape sequences and the key state tracker -/

/-- C1: from any state in which the pause key (logical code 0x6F) is up, the six bytes
E1, 1D, 45, E1, 9D, C5 give exactly two accepted transitions: the third byte converts to
0x6F as a make and is accepted, setting the bit of 0x6F, and the sixth converts to 0x6F
as a break and is accepted, clearing it again; the other four bytes return false, deliver
no event and change no key bit, and the escape counter ends at 0. -/
theorem C1_pause_sequence (host : Host) (kbd : GenericPS2Keyboard)
    (hup : KBV_IS_KEYDOWN 0x6F kbd._keyBitVector = false) :
    let o1 := dispatchKeyboardEventWithScancode host kbd 0xE1
    let o2 := dispatchKeyboardEventWithScancode host o1.kbd 0x1D
    let o3 := dispatchKeyboardEventWithScancode host o2.kbd 0x45
    let o4 := dispatchKeyboardEventWithScancode host o3.kbd 0xE1
    let o5 := dispatchKeyboardEventWithScancode host o4.kbd 0x9D
    let o6 := dispatchKeyboardEventWithScancode host o5.kbd 0xC5
    [o1.result, o2.result, o3.result, o4.result, o5.result, o6.result]
        = [false, false, true, false, false, true]
      ∧ (scanCodeToKeyCode host o2.kbd 0x45).keyCode = some 0x6F ∧ hasUpBit 0x45 = false
      ∧ (scanCodeToKeyCode host o5.kbd 0xC5).keyCode = some 0x6F ∧ hasUpBit 0xC5 = true
      ∧ o1.kbd._keyBitVector = kbd._keyBitVector
      ∧ o2.kbd._keyBitVector = kbd._keyBitVector
      ∧ o3.kbd._keyBitVector = KBV_KEYDOWN 0x6F kbd._keyBitVector
      ∧ o4.kbd._keyBitVector = o3.kbd._keyBitVector
      ∧ o5.kbd._keyBitVector = o3.kbd._keyBitVector
      ∧ o6.kbd._keyBitVector = KBV_KEYUP 0x6F o3.kbd._keyBitVector
      ∧ o6.kbd._keyBitVector = kbd._keyBitVector
      ∧ o1.events = [] ∧ o2.events = [] ∧ o4.events = [] ∧ o5.events = []
      ∧ o6.kbd._extendCount = 0 := by
  intro o1 o2 o3 o4 o5 o6
  have h1 : o1 = ⟨false, { kbd with _extendCount := 2 }, [], false⟩ :=
    (dispatch_escape_bytes host kbd).2
  have h2 : o2 = ⟨false, { kbd with _extendCount := 1 }, [], false⟩ := by
    simp [o2, h1, dispatchKeyboardEventWithScancode, scanCodeToKeyCode, kSC_Extend, kSC_Pause]
  have d3 : scanCodeToKeyCode host o2.kbd 0x45 = ⟨0, some 0x6F, false⟩ := by
    have e1 : stripUpBit 0x45 = 0x45 := by decide
    simp [h2, scanCodeToKeyCode, kSC_Extend, kSC_Pause, extendedKeyCode, e1]
  have h3 : o3 = deliver host
      { kbd with _extendCount := 0, _keyBitVector := KBV_KEYDOWN 0x6F kbd._keyBitVector }
      0x6F true false := by
    have := dispatch_make_of_up host o2.kbd 0x45 0x6F (by rw [d3]) (by decide) (by decide)
      (by rw [h2]; exact hup)
    exact this.trans (by simp only [afterConversion, d3]; simp only [h2])
  have h4 : o4 = ⟨false, { o3.kbd with _extendCount := 2 }, [], false⟩ :=
    (dispatch_escape_bytes host o3.kbd).2
  have h5 : o5 = ⟨false, { o3.kbd with _extendCount := 1 }, [], false⟩ := by
    simp [o5, h4, dispatchKeyboardEventWithScancode, scanCodeToKeyCode, kSC_Extend, kSC_Pause]
  have d6 : scanCodeToKeyCode host o5.kbd 0xC5 = ⟨0, some 0x6F, false⟩ := by
    have e2 : stripUpBit 0xC5 = 0x45 := by decide
    simp [h5, scanCodeToKeyCode, kSC_Extend, kSC_Pause, extendedKeyCode, e2]
  have h6 : o6 = deliver host
      { o3.kbd with _extendCount := 0, _keyBitVector := KBV_KEYUP 0x6F o3.kbd._keyBitVector }
      0x6F false false := by
    have := dispatch_break host o5.kbd 0xC5 0x6F (by rw [d6]) (by decide) (by decide)
    exact this.trans (by simp only [afterConversion, d6]; simp only [h5])
  have k3 : o3.kbd._keyBitVector = KBV_KEYDOWN 0x6F kbd._keyBitVector := by
    rw [h3, deliver_keyBitVector]
  have k6 : o6.kbd._keyBitVector = KBV_KEYUP 0x6F o3.kbd._keyBitVector := by
    rw [h6, deliver_keyBitVector]
  refine ⟨?_, by rw [d3], by decide, by rw [d6], by decide, by rw [h1], by rw [h2], k3,
    by rw [h4], by rw [h5], k6, ?_, by rw [h1], by rw [h2], by rw [h4], by rw [h5], ?_⟩
  · have r3 : o3.result = true := by rw [h3, deliver_result]
    have r6 : o6.result = true := by rw [h6, deliver_result]
    rw [r3, r6, h1, h2, h4, h5]
  · rw [k6, k3]
    funext m
    simp only [KBV_KEYUP, KBV_KEYDOWN]
    by_cases hm : m = 0x6F
    · simp only [hm, if_true]
      exact hup.symm
    · simp only [hm, if_false]
  · rw [h6, deliver_extendCount]

/-- Witness of C1: the pause sequence fed to the start state, on the example host. -/
theorem C1_pause_sequence_witness :
    KBV_IS_KEYDOWN 0x6F (init 0x39 false false)._keyBitVector = false
      ∧ (feed exampleHost (init 0x39 false false) [0xE1, 0x1D, 0x45, 0xE1, 0x9D, 0xC5]).1
        = [false, false, true, false, false, true]
      ∧ (feed exampleHost (init 0x39 false false)
          [0xE1, 0x1D, 0x45, 0xE1, 0x9D, 0xC5]).2._extendCount = 0 :=
  ⟨rfl, (C1_pause_sequence exampleHost (init 0x39 false false) rfl).1,
    (C1_pause_sequence exampleHost (init 0x39 false false) rfl).2.2.2.2.2.2.2.2.2.2.2.2.2.2.2.2⟩

/-- C2: in every driver state, a call on the byte 0xE0 returns false, delivers no event,
requests no power notification and changes nothing but the escape counter, which becomes
1; a call on the byte 0xE1 does the same with the escape counter becoming 2. The escape
counter before the call plays no part. -/
theorem C2_escape_bytes (host : Host) (kbd : GenericPS2Keyboard) :
    dispatchKeyboardEventWithScancode host kbd 0xE0
        = ⟨false, { kbd with _extendCount := 1 }, [], false⟩
      ∧ dispatchKeyboardEventWithScancode host kbd 0xE1
        = ⟨false, { kbd with _extendCount := 2 }, [], false⟩
      ∧ (dispatchKeyboardEventWithScancode host kbd 0xE0).kbd._keyBitVector
        = kbd._keyBitVector
      ∧ (dispatchKeyboardEventWithScancode host kbd 0xE0).kbd._insertKeyDown
        = kbd._insertKeyDown
      ∧ (dispatchKeyboardEventWithScancode host kbd 0xE0).kbd._applicationKeyDown
        = kbd._applicationKeyDown
      ∧ (dispatchKeyboardEventWithScancode host kbd 0xE1).kbd._keyBitVector
        = kbd._keyBitVector
      ∧ (dispatchKeyboardEventWithScancode host kbd 0xE1).kbd._insertKeyDown
        = kbd._insertKeyDown
      ∧ (dispatchKeyboardEventWithScancode host kbd 0xE1).kbd._applicationKeyDown
        = kbd._applicationKeyDown := by
  obtain ⟨h0, h1⟩ := dispatch_escape_bytes host kbd
  refine ⟨h0, h1, ?_, ?_, ?_, ?_, ?_, ?_⟩ <;> first | rw [h0] | rw [h1]

/-- C3: for every byte that converts to a nonzero key code `c` with the release flag
clear: if the bit of `c` is set, the call returns false, delivers no event and leaves the
key bit vector and the latch flags unchanged; otherwise it sets the bit of `c` and
returns true. Consequently, from a state in which `c` is up, of two makes of `c` in a
row exactly the first is accepted, and of make, break, make of `c` all three are
accepted, in whatever decoder state the first make arrives; the same byte fed twice in
the Normal state is such a pair of makes, and so is the byte of an extended key when the
prefix E0 is sent before it each time. -/
theorem C3_make_autorepeat (host : Host) (kbd : GenericPS2Keyboard) (scanCode c : Nat)
    (h : (scanCodeToKeyCode host kbd scanCode).keyCode = some c) (hc : c ≠ 0)
    (hmake : hasUpBit scanCode = false) :
    (KBV_IS_KEYDOWN c kbd._keyBitVector = true →
        dispatchKeyboardEventWithScancode host kbd scanCode
          = ⟨false, { kbd with _extendCount := 0 }, [], false⟩)
      ∧ (KBV_IS_KEYDOWN c kbd._keyBitVector = false →
        (dispatchKeyboardEventWithScancode host kbd scanCode).result = true
          ∧ (dispatchKeyboardEventWithScancode host kbd scanCode).kbd._keyBitVector
            = KBV_KEYDOWN c kbd._keyBitVector)
      ∧ (KBV_IS_KEYDOWN c kbd._keyBitVector = false →
        ∀ scanCode', hasUpBit scanCode' = false →
          (scanCodeToKeyCode host
            (dispatchKeyboardEventWithScancode host kbd scanCode).kbd scanCode').keyCode
            = some c →
          (feed host kbd [scanCode, scanCode']).1 = [true, false])
      ∧ (KBV_IS_KEYDOWN c kbd._keyBitVector = false →
        ∀ b scanCode', hasUpBit b = true →
          (scanCodeToKeyCode host
            (dispatchKeyboardEventWithScancode host kbd scanCode).kbd b).keyCode = some c →
          hasUpBit scanCode' = false →
          (scanCodeToKeyCode host
            (dispatchKeyboardEventWithScancode host
              (dispatchKeyboardEventWithScancode host kbd scanCode).kbd b).kbd
            scanCode').keyCode = some c →
          (feed host kbd [scanCode, b, scanCode']).1 = [true, true, true])
      ∧ (kbd._extendCount = 0 → KBV_IS_KEYDOWN c kbd._keyBitVector = false →
        (feed host kbd [scanCode, scanCode]).1 = [true, false])
      ∧ (kbd._extendCount = 0 → KBV_IS_KEYDOWN c kbd._keyBitVector = false →
        ∀ b, hasUpBit b = true → (scanCodeToKeyCode host kbd b).keyCode = some c →
          (feed host kbd [scanCode, b, scanCode]).1 = [true, true, true])
      ∧ (kbd._extendCount = 1 → KBV_IS_KEYDOWN c kbd._keyBitVector = false →
        (feed host kbd [scanCode, 0xE0, scanCode]).1 = [true, false, false])
      ∧ (kbd._extendCount = 1 → KBV_IS_KEYDOWN c kbd._keyBitVector = false →
        ∀ b, hasUpBit b = true → (scanCodeToKeyCode host kbd b).keyCode = some c →
          (feed host kbd [scanCode, 0xE0, b, 0xE0, scanCode]).1
            = [true, false, true, false, true]) := by
  have hx0 := (of_keyCode_eq_some host kbd scanCode c h).2.2.2
  have hs0 := sleepNow_of_keyCode_ne_zero host kbd scanCode c h hc
  refine ⟨?_, ?_, ?_, ?_, ?_, ?_, ?_, ?_⟩
  · intro hd
    rw [dispatch_make_of_down host kbd scanCode c h hc hmake hd, afterConversion, hx0, hs0]
  · intro hu
    rw [dispatch_make_of_up host kbd scanCode c h hc hmake hu, deliver_result,
      deliver_keyBitVector]
    exact ⟨rfl, rfl⟩
  · intro hu scanCode' hmake' h'
    obtain ⟨r1, b1⟩ := dispatch_make host kbd scanCode c h hc hmake
    obtain ⟨r2, -⟩ := dispatch_make host _ scanCode' c h' hc hmake'
    simp only [feed_cons, feed_nil, r1, r2, hu, b1, Bool.not_false, Bool.not_true]
  · intro hu b scanCode' hb hbc hmake' h'
    obtain ⟨r1, -⟩ := dispatch_make host kbd scanCode c h hc hmake
    obtain ⟨r2, k2⟩ := dispatch_break_bit host _ b c hbc hc hb
    obtain ⟨r3, -⟩ := dispatch_make host _ scanCode' c h' hc hmake'
    have b2 : KBV_IS_KEYDOWN c (dispatchKeyboardEventWithScancode host
        (dispatchKeyboardEventWithScancode host kbd scanCode).kbd b).kbd._keyBitVector
        = false := by
      rw [k2]
      simp [KBV_IS_KEYDOWN, KBV_KEYUP]
    simp only [feed_cons, feed_nil, r1, r2, r3, hu, b2, Bool.not_false]
  · intro hx hu
    obtain ⟨r1, b1, x1, s1⟩ := step_make host kbd scanCode c h hc hmake kbd rfl rfl
    obtain ⟨r2, -⟩ := step_make host kbd scanCode c h hc hmake _ (x1.trans hx.symm) s1
    simp only [feed_cons, feed_nil, r1, r2, hu, b1, Bool.not_false, Bool.not_true]
  · intro hx hu b hb hbc
    obtain ⟨r1, -, x1, s1⟩ := step_make host kbd scanCode c h hc hmake kbd rfl rfl
    obtain ⟨r2, b2, x2, s2⟩ := step_break host kbd b c hbc hc hb _ (x1.trans hx.symm) s1
    obtain ⟨r3, -⟩ := step_make host kbd scanCode c h hc hmake _ (x2.trans hx.symm) s2
    simp only [feed_cons, feed_nil, r1, r2, r3, hu, b2, Bool.not_false]
  · intro hx hu
    obtain ⟨r1, b1, -, s1⟩ := step_make host kbd scanCode c h hc hmake kbd rfl rfl
    obtain ⟨r2, b2, x2, s2⟩ := step_extend host
      (dispatchKeyboardEventWithScancode host kbd scanCode).kbd c
    obtain ⟨r3, -⟩ := step_make host kbd scanCode c h hc hmake _ (x2.trans hx.symm)
      (s2.trans s1)
    simp only [feed_cons, feed_nil, r1, r2, r3, hu, b2, b1, Bool.not_false, Bool.not_true]
  · intro hx hu b hb hbc
    obtain ⟨r1, -, -, s1⟩ := step_make host kbd scanCode c h hc hmake kbd rfl rfl
    obtain ⟨r2, -, x2, s2⟩ := step_extend host
      (dispatchKeyboardEventWithScancode host kbd scanCode).kbd c
    obtain ⟨r3, b3, -, s3⟩ := step_break host kbd b c hbc hc hb _ (x2.trans hx.symm)
      (s2.trans s1)
    obtain ⟨r4, b4, x4, s4⟩ := step_extend host
      (dispatchKeyboardEventWithScancode host
        (dispatchKeyboardEventWithScancode host
          (dispatchKeyboardEventWithScancode host kbd scanCode).kbd 0xE0).kbd b).kbd c
    obtain ⟨r5, -⟩ := step_make host kbd scanCode c h hc hmake _ (x4.trans hx.symm)
      (s4.trans s3)
    simp only [feed_cons, feed_nil, r1, r2, r3, r4, r5, hu, b4, b3, Bool.not_false]

/-- Witness of C3: the make 0x1E in the start state, with its break 0x9E, and the make
0x1D one byte after the prefix E0, with its break 0x9D. -/
theorem C3_make_autorepeat_witness :
    ((scanCodeToKeyCode exampleHost (init 0x39 false false) 0x1E).keyCode = some 0x1E
      ∧ 0x1E ≠ 0 ∧ hasUpBit 0x1E = false)
      ∧ (feed exampleHost (init 0x39 false false) [0x1E, 0x1E]).1 = [true, false]
      ∧ (feed exampleHost (init 0x39 false false) [0x1E, 0x9E, 0x1E]).1 = [true, true, true]
      ∧ (feed exampleHost (extendPending 0x39 false false) [0x1D, 0xE0, 0x1D]).1
        = [true, false, false]
      ∧ (feed exampleHost (extendPending 0x39 false false) [0x1D, 0xE0, 0x9D, 0xE0, 0x1D]).1
        = [true, false, true, false, true] :=
  ⟨⟨by decide, by decide, by decide⟩,
    (C3_make_autorepeat exampleHost (init 0x39 false false) 0x1E 0x1E
      (by decide) (by decide) (by decide)).2.2.1 rfl 0x1E (by decide) (by decide),
    (C3_make_autorepeat exampleHost (init 0x39 false false) 0x1E 0x1E
      (by decide) (by decide) (by decide)).2.2.2.1 rfl 0x9E 0x1E (by decide) (by decide)
      (by decide) (by decide),
    (C3_make_autorepeat exampleHost (extendPending 0x39 false false) 0x1D 0x60
      (by decide) (by decide) (by decide)).2.2.2.2.2.2.1 rfl rfl,
    (C3_make_autorepeat exampleHost (extendPending 0x39 false false) 0x1D 0x60
      (by decide) (by decide) (by decide)).2.2.2.2.2.2.2 rfl rfl 0x9D (by decide) (by decide)⟩

/-- C4: for every byte that converts to a nonzero key code `c` with the release flag
set, whether or not `c` is marked down, the call returns true, the bit of `c` is clear
afterwards and every other bit of the key bit vector is unchanged; if `c` was not down
the whole key bit vector is unchanged. -/
theorem C4_break_always_accepted (host : Host) (kbd : GenericPS2Keyboard) (scanCode c : Nat)
    (h : (scanCodeToKeyCode host kbd scanCode).keyCode = some c) (hc : c ≠ 0)
    (hbreak : hasUpBit scanCode = true) :
    (dispatchKeyboardEventWithScancode host kbd scanCode).result = true
      ∧ KBV_IS_KEYDOWN c (dispatchKeyboardEventWithScancode host kbd scanCode).kbd._keyBitVector
        = false
      ∧ (∀ m, m ≠ c →
        KBV_IS_KEYDOWN m (dispatchKeyboardEventWithScancode host kbd scanCode).kbd._keyBitVector
          = KBV_IS_KEYDOWN m kbd._keyBitVector)
      ∧ (KBV_IS_KEYDOWN c kbd._keyBitVector = false →
        (dispatchKeyboardEventWithScancode host kbd scanCode).kbd._keyBitVector
          = kbd._keyBitVector) := by
  obtain ⟨r, b⟩ := dispatch_break_bit host kbd scanCode c h hc hbreak
  refine ⟨r, ?_, ?_, ?_⟩
  · rw [b]
    simp [KBV_IS_KEYDOWN, KBV_KEYUP]
  · intro m hm
    rw [b]
    simp [KBV_IS_KEYDOWN, KBV_KEYUP, hm]
  · intro hu
    rw [b]
    funext m
    by_cases hm : m = c
    · simp only [KBV_KEYUP, hm, if_true]
      exact hu.symm
    · simp only [KBV_KEYUP, hm, if_false]

/-- Witness of C4: the break 0x9E in the start state, where the key 0x1E is not down. -/
theorem C4_break_always_accepted_witness :
    ((scanCodeToKeyCode exampleHost (init 0x39 false false) 0x9E).keyCode = some 0x1E
      ∧ 0x1E ≠ 0 ∧ hasUpBit 0x9E = true)
      ∧ (dispatchKeyboardEventWithScancode exampleHost (init 0x39 false false) 0x9E).result
        = true
      ∧ (dispatchKeyboardEventWithScancode exampleHost
          (init 0x39 false false) 0x9E).kbd._keyBitVector
        = (init 0x39 false false)._keyBitVector :=
  ⟨⟨by decide, by decide, by decide⟩,
    (C4_break_always_accepted exampleHost (init 0x39 false false) 0x9E 0x1E
      (by decide) (by decide) (by decide)).1,
    (C4_break_always_accepted exampleHost (init 0x39 false false) 0x9E 0x1E
      (by decide) (by decide) (by decide)).2.2.2 rfl⟩

/-! ## Claims C5 - C7: the alt/windows swap -/

/-- C5: in the Normal state, a byte whose low seven bits are 0x38 (the left-alt make or
break) converts to 0x38 when the alt/windows swap is disabled and to 0x70 when it is
enabled, and 0x70 is what E0 5B converts to with the swap disabled; every other
non-prefix byte whose low seven bits are not 0x6A converts to its low seven bits, with
the swap enabled or disabled. -/
theorem C5_normal_left_alt (host : Host) (kbd : GenericPS2Keyboard) (scanCode : Nat)
    (hbyte : scanCode < 256) (hx : kbd._extendCount = 0) :
    (scanCode % 128 = 0x38 →
        (scanCodeToKeyCode host kbd scanCode).keyCode
          = some (if kbd._windowsAltSwap then 0x70 else 0x38))
      ∧ (scanCodeToKeyCode host
          (dispatchKeyboardEventWithScancode host
            { kbd with _windowsAltSwap := false } 0xE0).kbd 0x5B).keyCode = some 0x70
      ∧ (scanCode ≠ 0xE0 → scanCode ≠ 0xE1 → scanCode % 128 ≠ 0x38 → scanCode % 128 ≠ 0x6A →
        (scanCodeToKeyCode host kbd scanCode).keyCode = some (scanCode % 128)) := by
  have hm := stripUpBit_eq_mod scanCode hbyte
  refine ⟨?_, ?_, ?_⟩
  · intro h38
    have hE : scanCode ≠ 0xE0 := by omega
    have hP : scanCode ≠ 0xE1 := by omega
    rw [scanCodeToKeyCode_normal host kbd scanCode hx hE hP, hm]
    simp [h38]
  · rw [(dispatch_escape_bytes host _).1]
    have e : stripUpBit 0x5B = 0x5B := by decide
    simp [scanCodeToKeyCode, kSC_Extend, kSC_Pause, extendedKeyCode, e]
  · intro hE hP h38 h6a
    rw [scanCodeToKeyCode_normal host kbd scanCode hx hE hP, hm]
    simp [h38, h6a]

/-- Witness of C5: the left-alt make 0x38 and the make 0x1E in the start state, with the
swap enabled. -/
theorem C5_normal_left_alt_witness :
    ((0x38 : Nat) < 256 ∧ (init 0x39 true false)._extendCount = 0)
      ∧ (scanCodeToKeyCode exampleHost (init 0x39 true false) 0x38).keyCode = some 0x70
      ∧ (scanCodeToKeyCode exampleHost (init 0x39 true false) 0x1E).keyCode = some 0x1E :=
  ⟨⟨by decide, rfl⟩,
    (C5_normal_left_alt exampleHost (init 0x39 true false) 0x38 (by decide) rfl).1
      (by decide),
    (C5_normal_left_alt exampleHost (init 0x39 true false) 0x1E (by decide) rfl).2.2
      (by decide) (by decide) (by decide) (by decide)⟩

/-- C6, the code at the failing input: after the prefix E0, a byte whose low seven bits
are 0x38 (make 0x38, break 0xB8) converts to the right-alt code 0x61 whether the
alt/windows swap is enabled or not, and never to 0x71, the code E0 5C converts to with
the swap disabled. -/
theorem C6_extended_right_alt (host : Host) (kbd : GenericPS2Keyboard) (swap : Bool) :
    (scanCodeToKeyCode host
        (dispatchKeyboardEventWithScancode host
          { kbd with _windowsAltSwap := swap } 0xE0).kbd 0x38).keyCode = some 0x61
      ∧ (scanCodeToKeyCode host
        (dispatchKeyboardEventWithScancode host
          { kbd with _windowsAltSwap := swap } 0xE0).kbd 0xB8).keyCode = some 0x61
      ∧ (scanCodeToKeyCode host
        (dispatchKeyboardEventWithScancode host
          { kbd with _windowsAltSwap := false } 0xE0).kbd 0x5C).keyCode = some 0x71 := by
  have e1 : stripUpBit 0x38 = 0x38 := by decide
  have e2 : stripUpBit 0xB8 = 0x38 := by decide
  have e3 : stripUpBit 0x5C = 0x5C := by decide
  refine ⟨?_, ?_, ?_⟩ <;> rw [(dispatch_escape_bytes host _).1] <;>
    simp [scanCodeToKeyCode, kSC_Extend, kSC_Pause, extendedKeyCode, e1, e2, e3]

/-- C7, the code at the failing input: with the alt/windows swap enabled E0 5B converts
to 0x38, the code of the bare left alt with the swap disabled, but E0 5C converts to
0x6A, which is the code of page up (E0 49) and not the code 0x61 of the right alt
(E0 38); with the swap disabled E0 5B and E0 5C convert to 0x70 and 0x71. -/
theorem C7_extended_windows_keys (host : Host) (kbd : GenericPS2Keyboard) :
    (scanCodeToKeyCode host
        (dispatchKeyboardEventWithScancode host
          { kbd with _windowsAltSwap := true } 0xE0).kbd 0x5B).keyCode = some 0x38
      ∧ (scanCodeToKeyCode host
        { kbd with _extendCount := 0, _windowsAltSwap := false } 0x38).keyCode = some 0x38
      ∧ (scanCodeToKeyCode host
        (dispatchKeyboardEventWithScancode host
          { kbd with _windowsAltSwap := true } 0xE0).kbd 0x5C).keyCode = some 0x6A
      ∧ (scanCodeToKeyCode host
        (dispatchKeyboardEventWithScancode host
          { kbd with _windowsAltSwap := true } 0xE0).kbd 0x49).keyCode = some 0x6A
      ∧ (scanCodeToKeyCode host
        (dispatchKeyboardEventWithScancode host
          { kbd with _windowsAltSwap := false } 0xE0).kbd 0x38).keyCode = some 0x61
      ∧ (scanCodeToKeyCode host
        (dispatchKeyboardEventWithScancode host
          { kbd with _windowsAltSwap := false } 0xE0).kbd 0x5B).keyCode = some 0x70
      ∧ (scanCodeToKeyCode host
        (dispatchKeyboardEventWithScancode host
          { kbd with _windowsAltSwap := false } 0xE0).kbd 0x5C).keyCode = some 0x71 := by
  have e1 : stripUpBit 0x38 = 0x38 := by decide
  have e2 : stripUpBit 0x5B = 0x5B := by decide
  have e3 : stripUpBit 0x5C = 0x5C := by decide
  have e4 : stripUpBit 0x49 = 0x49 := by decide
  refine ⟨?_, ?_, ?_, ?_, ?_, ?_, ?_⟩ <;> try rw [(dispatch_escape_bytes host _).1]
  all_goals
    simp [scanCodeToKeyCode, kSC_Extend, kSC_Pause, extendedKeyCode, e1, e2, e3, e4]

/-! ## Claims C8 - C10: the function-key overlay and its latches -/

/-- C8: with function-key remapping enabled and both latches clear, an accepted
transition whose translated code is 0x63 delivers exactly two events, right control
(0x3E) and then up arrow (0x7E), both with the direction of the byte and both with the
same time stamp (the reading of the clock made in `remapFunctionKeys`); no event carries
0x63 or the dead-key value 0xA4, and the call returns true. -/
theorem C8_mission_control_chord (host : Host) (kbd : GenericPS2Keyboard) (scanCode c : Nat)
    (hacc : Accepted host kbd scanCode c)
    (hremap : kbd._remapFunctionKeys = true)
    (hins : kbd._insertKeyDown = false) (happ : kbd._applicationKeyDown = false)
    (hcode : translatedKeyCode host kbd._capslockKeyCode c = 0x63) :
    (dispatchKeyboardEventWithScancode host kbd scanCode).events
        = [⟨0x3e, !hasUpBit scanCode, host.clock_get_uptime 1⟩,
           ⟨0x7e, !hasUpBit scanCode, host.clock_get_uptime 1⟩]
      ∧ (∀ e ∈ (dispatchKeyboardEventWithScancode host kbd scanCode).events,
          e.keyCode ≠ 0x63 ∧ e.keyCode ≠ kRemappedDeadKey)
      ∧ (dispatchKeyboardEventWithScancode host kbd scanCode).result = true := by
  have hev : (dispatchKeyboardEventWithScancode host kbd scanCode).events
      = [⟨0x3e, !hasUpBit scanCode, host.clock_get_uptime 1⟩,
         ⟨0x7e, !hasUpBit scanCode, host.clock_get_uptime 1⟩] := by
    rw [dispatch_of_accepted host kbd scanCode c hacc]
    simp [deliver, hremap, hins, happ, hcode, remapFunctionKeys, kRemappedDeadKey]
  refine ⟨hev, ?_, ?_⟩
  · rw [hev]
    intro e he
    simp only [List.mem_cons, List.mem_singleton, List.mem_nil_iff, or_false] at he
    rcases he with he | he <;> subst he <;> simp [kRemappedDeadKey]
  · rw [dispatch_of_accepted host kbd scanCode c hacc, deliver_result]

/-- Witness of C8: on the example host, remapping enabled, the make E0 35 converts to the
key code 0x63, which the identity table translates to 0x63. -/
theorem C8_mission_control_chord_witness :
    (Accepted exampleHost (extendPending 0x39 false true) 0x35 0x63
      ∧ (extendPending 0x39 false true)._remapFunctionKeys = true
      ∧ (extendPending 0x39 false true)._insertKeyDown = false
      ∧ (extendPending 0x39 false true)._applicationKeyDown = false
      ∧ translatedKeyCode exampleHost (extendPending 0x39 false true)._capslockKeyCode 0x63
        = 0x63)
      ∧ (dispatchKeyboardEventWithScancode exampleHost
          (extendPending 0x39 false true) 0x35).events
        = [⟨0x3e, true, 1001⟩, ⟨0x7e, true, 1001⟩] :=
  ⟨⟨by decide, rfl, rfl, rfl, by decide⟩,
    (C8_mission_control_chord exampleHost (extendPending 0x39 false true) 0x35 0x63
      (by decide) rfl rfl rfl (by decide)).1⟩

/-- C9: for every accepted transition, if function-key remapping is disabled, or it is
enabled, at least one of the two latches is held and the translated code is neither 0x72
nor 0x6E, then exactly one event is delivered: it carries the translated code (the table
value after the caps-lock retarget), the direction of the byte and the time stamp read in
the call, and the call returns true. -/
theorem C9_overlay_inactive (host : Host) (kbd : GenericPS2Keyboard) (scanCode c : Nat)
    (hacc : Accepted host kbd scanCode c)
    (hgate : kbd._remapFunctionKeys = false
      ∨ (kbd._remapFunctionKeys = true
        ∧ (kbd._insertKeyDown = true ∨ kbd._applicationKeyDown = true)
        ∧ translatedKeyCode host kbd._capslockKeyCode c ≠ 0x72
        ∧ translatedKeyCode host kbd._capslockKeyCode c ≠ 0x6e)) :
    (dispatchKeyboardEventWithScancode host kbd scanCode).events
        = [⟨translatedKeyCode host kbd._capslockKeyCode c, !hasUpBit scanCode,
            host.clock_get_uptime 0⟩]
      ∧ (dispatchKeyboardEventWithScancode host kbd scanCode).result = true := by
  refine ⟨?_, ?_⟩
  · rw [dispatch_of_accepted host kbd scanCode c hacc]
    rcases hgate with hoff | ⟨hon, hlatch, h72, h6e⟩
    · simp [deliver, hoff]
    · rcases hlatch with hl | hl <;> simp [deliver, hon, hl, h72, h6e]
  · rw [dispatch_of_accepted host kbd scanCode c hacc, deliver_result]

/-- Witness of C9: on the example host, remapping enabled and insert held, the make 0x7A
(an overlay position under the identity table) is delivered as 0x7A. -/
theorem C9_overlay_inactive_witness :
    (Accepted exampleHost { init 0x39 false true with _insertKeyDown := true } 0x7A 0x7A
      ∧ translatedKeyCode exampleHost 0x39 0x7A ≠ 0x72
      ∧ translatedKeyCode exampleHost 0x39 0x7A ≠ 0x6e)
      ∧ (dispatchKeyboardEventWithScancode exampleHost
          { init 0x39 false true with _insertKeyDown := true } 0x7A).events
        = [⟨0x7A, true, 1000⟩] :=
  ⟨⟨by decide, by decide, by decide⟩,
    (C9_overlay_inactive exampleHost { init 0x39 false true with _insertKeyDown := true }
      0x7A 0x7A (by decide)
      (Or.inr ⟨rfl, Or.inl rfl, by decide, by decide⟩)).1⟩

/-- C10: with function-key remapping enabled, an accepted transition whose translated
code is 0x72 sets `_insertKeyDown` to the direction of the byte, and one whose translated
code is 0x6E sets `_applicationKeyDown` to the direction of the byte; in both cases no
event is delivered, the other latch flag is unchanged and the call returns true, whatever
the two latch flags were. -/
theorem C10_latch_keys (host : Host) (kbd : GenericPS2Keyboard) (scanCode c : Nat)
    (hacc : Accepted host kbd scanCode c)
    (hremap : kbd._remapFunctionKeys = true) :
    (translatedKeyCode host kbd._capslockKeyCode c = 0x72 →
        (dispatchKeyboardEventWithScancode host kbd scanCode).kbd._insertKeyDown
            = !hasUpBit scanCode
          ∧ (dispatchKeyboardEventWithScancode host kbd scanCode).kbd._applicationKeyDown
            = kbd._applicationKeyDown
          ∧ (dispatchKeyboardEventWithScancode host kbd scanCode).events = []
          ∧ (dispatchKeyboardEventWithScancode host kbd scanCode).result = true)
      ∧ (translatedKeyCode host kbd._capslockKeyCode c = 0x6e →
        (dispatchKeyboardEventWithScancode host kbd scanCode).kbd._applicationKeyDown
            = !hasUpBit scanCode
          ∧ (dispatchKeyboardEventWithScancode host kbd scanCode).kbd._insertKeyDown
            = kbd._insertKeyDown
          ∧ (dispatchKeyboardEventWithScancode host kbd scanCode).events = []
          ∧ (dispatchKeyboardEventWithScancode host kbd scanCode).result = true) := by
  rw [dispatch_of_accepted host kbd scanCode c hacc]
  refine ⟨?_, ?_⟩
  · intro h72
    simp [deliver, hremap, h72]
  · intro h6e
    simp [deliver, hremap, h6e]

/-- Witness of C10: on the example host with remapping enabled, the make E0 5D converts
to the key code 0x72, and the make E0 37 to the key code 0x6E while insert is held. -/
theorem C10_latch_keys_witness :
    (Accepted exampleHost (extendPending 0x39 false true) 0x5D 0x72
      ∧ (extendPending 0x39 false true)._remapFunctionKeys = true
      ∧ translatedKeyCode exampleHost 0x39 0x72 = 0x72)
      ∧ ((dispatchKeyboardEventWithScancode exampleHost
            (extendPending 0x39 false true) 0x5D).kbd._insertKeyDown = true
        ∧ (dispatchKeyboardEventWithScancode exampleHost
            (extendPending 0x39 false true) 0x5D).events = [])
      ∧ ((dispatchKeyboardEventWithScancode exampleHost
            { extendPending 0x39 false true with _insertKeyDown := true }
            0x37).kbd._applicationKeyDown = true
        ∧ (dispatchKeyboardEventWithScancode exampleHost
            { extendPending 0x39 false true with _insertKeyDown := true }
            0x37).kbd._insertKeyDown = true) :=
  ⟨⟨by decide, rfl, by decide⟩,
    ⟨((C10_latch_keys exampleHost (extendPending 0x39 false true) 0x5D 0x72
        (by decide) rfl).1 (by decide)).1,
      ((C10_latch_keys exampleHost (extendPending 0x39 false true) 0x5D 0x72
        (by decide) rfl).1 (by decide)).2.2.1⟩,
    ⟨((C10_latch_keys exampleHost { extendPending 0x39 false true with _insertKeyDown := true }
        0x37 0x6E (by decide) rfl).2 (by decide)).1,
      ((C10_latch_keys exampleHost { extendPending 0x39 false true with _insertKeyDown := true }
        0x37 0x6E (by decide) rfl).2 (by decide)).2.1⟩⟩

/-! ## Claims C11 - C12: the caps-lock retarget and the overlay pass-through -/

/-- C11: for every accepted transition of key code `k`, the candidate delivered code is
`_capslockKeyCode` when `PS2ToADBMap[k]` is 0x39 and `PS2ToADBMap[k]` otherwise; with
function-key remapping disabled the call delivers exactly one event, carrying that
candidate, the direction of the byte and the time stamp read in the call, whatever the
configured target is. -/
theorem C11_capslock_retarget (host : Host) (kbd : GenericPS2Keyboard) (scanCode k : Nat)
    (hacc : Accepted host kbd scanCode k) (hremap : kbd._remapFunctionKeys = false) :
    translatedKeyCode host kbd._capslockKeyCode k
        = (if host.PS2ToADBMap k = 0x39 then kbd._capslockKeyCode else host.PS2ToADBMap k)
      ∧ (dispatchKeyboardEventWithScancode host kbd scanCode).events
        = [⟨if host.PS2ToADBMap k = 0x39 then kbd._capslockKeyCode else host.PS2ToADBMap k,
            !hasUpBit scanCode, host.clock_get_uptime 0⟩] := by
  refine ⟨rfl, ?_⟩
  rw [dispatch_of_accepted host kbd scanCode k hacc]
  simp [deliver, hremap, translatedKeyCode]

/-- Witness of C11: on the example host, whose table sends 0x39 to 0x39, the make 0x39
is delivered as the configured target 0x3B, and the make 0x1E as 0x1E. -/
theorem C11_capslock_retarget_witness :
    (Accepted exampleHost (init 0x3B false false) 0x39 0x39
      ∧ (init 0x3B false false)._remapFunctionKeys = false)
      ∧ (dispatchKeyboardEventWithScancode exampleHost (init 0x3B false false) 0x39).events
        = [⟨0x3B, true, 1000⟩]
      ∧ (dispatchKeyboardEventWithScancode exampleHost (init 0x3B false false) 0x1E).events
        = [⟨0x1E, true, 1000⟩] :=
  ⟨⟨by decide, rfl⟩,
    (C11_capslock_retarget exampleHost (init 0x3B false false) 0x39 0x39 (by decide) rfl).2,
    (C11_capslock_retarget exampleHost (init 0x3B false false) 0x1E 0x1E (by decide) rfl).2⟩

/-- With function-key remapping enabled and both latches clear, an accepted transition
whose candidate delivered code is neither a latch key code, nor an overlay position, nor
the dead-key value 0xA4 delivers exactly one event, carrying that code, the direction of
the byte and the time stamp read in the call. -/
theorem overlay_pass_through (host : Host) (kbd : GenericPS2Keyboard) (scanCode c : Nat)
    (hacc : Accepted host kbd scanCode c)
    (hremap : kbd._remapFunctionKeys = true)
    (hins : kbd._insertKeyDown = false) (happ : kbd._applicationKeyDown = false)
    (hlatch : translatedKeyCode host kbd._capslockKeyCode c ∉ [0x72, 0x6E])
    (hoverlay : translatedKeyCode host kbd._capslockKeyCode c
      ∉ [0x7A, 0x78, 0x63, 0x76, 0x62, 0x64, 0x65, 0x6D, 0x67, 0x6F])
    (hdead : translatedKeyCode host kbd._capslockKeyCode c ≠ kRemappedDeadKey) :
    (dispatchKeyboardEventWithScancode host kbd scanCode).events
        = [⟨translatedKeyCode host kbd._capslockKeyCode c, !hasUpBit scanCode,
            host.clock_get_uptime 0⟩]
      ∧ (dispatchKeyboardEventWithScancode host kbd scanCode).result = true := by
  refine ⟨?_, ?_⟩
  · rw [dispatch_of_accepted host kbd scanCode c hacc]
    simp only [List.mem_cons, List.mem_singleton, List.mem_nil_iff, or_false, not_or]
      at hlatch hoverlay
    obtain ⟨l1, l2⟩ := hlatch
    obtain ⟨o1, o2, o3, o4, o5, o6, o7, o8, o9, o10⟩ := hoverlay
    simp [deliver, hremap, hins, happ, remapFunctionKeys, l1, l2, o1, o2, o3, o4, o5, o6, o7,
      o8, o9, o10, hdead]
  · rw [dispatch_of_accepted host kbd scanCode c hacc, deliver_result]

/-- C12, the code at the failing input: with function-key remapping enabled and both
latches clear, an accepted transition whose candidate delivered code is 0xA4, which is
neither a latch key code nor an overlay position, returns true and delivers no event,
where the claim has one event carrying 0xA4; with remapping disabled, or with a latch
held, the same transition delivers one event carrying 0xA4. The example is the make 0x39
on the example host with the caps-lock target configured as 0xA4. For every candidate
code other than 0xA4, the latch key codes and the overlay positions, one event carrying
the code is delivered, as the claim says. -/
theorem C12_dead_key_collision (host : Host) (kbd : GenericPS2Keyboard) (scanCode c : Nat) :
    (Accepted host kbd scanCode c → kbd._remapFunctionKeys = true →
        kbd._insertKeyDown = false → kbd._applicationKeyDown = false →
        translatedKeyCode host kbd._capslockKeyCode c = 0xA4 →
        (dispatchKeyboardEventWithScancode host kbd scanCode).events = []
          ∧ (dispatchKeyboardEventWithScancode host kbd scanCode).result = true)
      ∧ (Accepted host kbd scanCode c →
        (kbd._remapFunctionKeys = false
          ∨ (kbd._insertKeyDown = true ∨ kbd._applicationKeyDown = true)) →
        translatedKeyCode host kbd._capslockKeyCode c = 0xA4 →
        (dispatchKeyboardEventWithScancode host kbd scanCode).events
          = [⟨0xA4, !hasUpBit scanCode, host.clock_get_uptime 0⟩])
      ∧ (Accepted host kbd scanCode c → kbd._remapFunctionKeys = true →
        kbd._insertKeyDown = false → kbd._applicationKeyDown = false →
        translatedKeyCode host kbd._capslockKeyCode c ∉ [0x72, 0x6E] →
        translatedKeyCode host kbd._capslockKeyCode c
          ∉ [0x7A, 0x78, 0x63, 0x76, 0x62, 0x64, 0x65, 0x6D, 0x67, 0x6F] →
        translatedKeyCode host kbd._capslockKeyCode c ≠ 0xA4 →
        (dispatchKeyboardEventWithScancode host kbd scanCode).events
          = [⟨translatedKeyCode host kbd._capslockKeyCode c, !hasUpBit scanCode,
              host.clock_get_uptime 0⟩])
      ∧ Accepted exampleHost (init 0xA4 false true) 0x39 0x39
      ∧ translatedKeyCode exampleHost (init 0xA4 false true)._capslockKeyCode 0x39 = 0xA4
      ∧ 0xA4 ∉ [0x72, 0x6E]
      ∧ 0xA4 ∉ [0x7A, 0x78, 0x63, 0x76, 0x62, 0x64, 0x65, 0x6D, 0x67, 0x6F]
      ∧ (dispatchKeyboardEventWithScancode exampleHost (init 0xA4 false true) 0x39).events
        = []
      ∧ (dispatchKeyboardEventWithScancode exampleHost (init 0xA4 false true) 0x39).result
        = true
      ∧ (dispatchKeyboardEventWithScancode exampleHost (init 0xA4 false false) 0x39).events
        = [⟨0xA4, true, 1000⟩]
      ∧ (dispatchKeyboardEventWithScancode exampleHost
          { init 0xA4 false true with _insertKeyDown := true } 0x39).events
        = [⟨0xA4, true, 1000⟩] := by
  refine ⟨?_, ?_, ?_, by decide, by decide, by decide, by decide, by decide, by decide,
    by decide, by decide⟩
  · intro hacc hremap hins happ hcode
    rw [dispatch_of_accepted host kbd scanCode c hacc]
    simp [deliver, hremap, hins, happ, hcode, remapFunctionKeys, kRemappedDeadKey]
  · intro hacc hgate hcode
    rw [dispatch_of_accepted host kbd scanCode c hacc]
    rcases hgate with hoff | hl
    · simp [deliver, hoff, hcode]
    · cases hr : kbd._remapFunctionKeys with
      | false => simp [deliver, hr, hcode]
      | true => rcases hl with hl | hl <;> simp [deliver, hr, hl, hcode]
  · intro hacc hremap hins happ hlatch hoverlay hdead
    exact (overlay_pass_through host kbd scanCode c hacc hremap hins happ hlatch hoverlay
      hdead).1

/-! ## Claims C13 - C14: the command byte updater -/

/-- After writes by other parties the register holds the last value written. -/
theorem externalWrites_concat (ctl : Controller) (writes : List Nat) (v : Nat) :
    (externalWrites ctl (writes ++ [v])).commandByte = v := by
  induction writes generalizing ctl with
  | nil => rfl
  | cons w rest ih => exact ih { ctl with commandByte := w }

/-- The register after writes by other parties depends on the register before only. -/
theorem externalWrites_congr (ctl ctl' : Controller) (writes : List Nat)
    (h : ctl'.commandByte = ctl.commandByte) :
    (externalWrites ctl' writes).commandByte = (externalWrites ctl writes).commandByte := by
  induction writes generalizing ctl ctl' with
  | nil => exact h
  | cons v rest ih => exact ih _ _ rfl

/-- The request that reads the command byte returns the register and leaves it alone. -/
theorem submit_readCommandByteRequest (K : Constants) (ctl : Controller) :
    ((submitRequestAndBlock K ctl (readCommandByteRequest K)).2.commands.getD 1
        ⟨.kPS2C_ReadDataPort, 0⟩).inOrOut = ctl.commandByte
      ∧ (submitRequestAndBlock K ctl (readCommandByteRequest K)).1.commandByte
        = ctl.commandByte := by
  simp [submitRequestAndBlock, readCommandByteRequest, Controller.run, Controller.step]

/-- The test-and-set request when the register still holds the compared byte: all four
steps complete and the register takes the new byte. -/
theorem submit_testAndSetRequest_of_eq (K : Constants) (ctl : Controller)
    (commandByte setBits clearBits : Nat) (h : ctl.commandByte = commandByte) :
    (submitRequestAndBlock K ctl
        (testAndSetRequest K commandByte setBits clearBits)).2.commandsCount = 4
      ∧ (submitRequestAndBlock K ctl
        (testAndSetRequest K commandByte setBits clearBits)).1.commandByte
        = commandByteNew commandByte setBits clearBits := by
  simp [submitRequestAndBlock, testAndSetRequest, Controller.run, Controller.step, h]

/-- The test-and-set request when the register holds another byte: it stops at the
comparison, after one step, and the register is not written. -/
theorem submit_testAndSetRequest_of_ne (K : Constants) (ctl : Controller)
    (commandByte setBits clearBits : Nat) (h : ctl.commandByte ≠ commandByte) :
    (submitRequestAndBlock K ctl
        (testAndSetRequest K commandByte setBits clearBits)).2.commandsCount = 1
      ∧ (submitRequestAndBlock K ctl
        (testAndSetRequest K commandByte setBits clearBits)).1.commandByte
        = ctl.commandByte := by
  simp [submitRequestAndBlock, testAndSetRequest, Controller.run, Controller.step, h]

/-- One pass through the loop: the byte read is the register at the start; the pass ends
with `commandsCount` 4 and the new byte in the register when the register still holds
the byte read, and with `commandsCount` 1 and the register untouched otherwise. -/
theorem setCommandByteBody_spec (K : Constants) (setBits clearBits : Nat) (ctl : Controller)
    (writes : List Nat) :
    (setCommandByteBody K setBits clearBits ctl writes).2.commandByte = ctl.commandByte
      ∧ (setCommandByteBody K setBits clearBits ctl writes).2.request
        = testAndSetRequest K ctl.commandByte setBits clearBits
      ∧ (setCommandByteBody K setBits clearBits ctl writes).2.before
        = (externalWrites ctl writes).commandByte
      ∧ (setCommandByteBody K setBits clearBits ctl writes).1.commandByte
        = (setCommandByteBody K setBits clearBits ctl writes).2.after
      ∧ ((setCommandByteBody K setBits clearBits ctl writes).2.before = ctl.commandByte →
        (setCommandByteBody K setBits clearBits ctl writes).2.commandsCount = 4
          ∧ (setCommandByteBody K setBits clearBits ctl writes).2.after
            = commandByteNew ctl.commandByte setBits clearBits)
      ∧ ((setCommandByteBody K setBits clearBits ctl writes).2.before ≠ ctl.commandByte →
        (setCommandByteBody K setBits clearBits ctl writes).2.commandsCount = 1
          ∧ (setCommandByteBody K setBits clearBits ctl writes).2.after
            = (setCommandByteBody K setBits clearBits ctl writes).2.before) := by
  obtain ⟨r1, r2⟩ := submit_readCommandByteRequest K ctl
  have hw : (externalWrites (submitRequestAndBlock K ctl (readCommandByteRequest K)).1
      writes).commandByte = (externalWrites ctl writes).commandByte :=
    externalWrites_congr ctl _ writes r2
  simp only [setCommandByteBody, r1]
  refine ⟨trivial, trivial, hw, trivial, ?_, ?_⟩
  · intro h
    exact submit_testAndSetRequest_of_eq K _ ctl.commandByte setBits clearBits h
  · intro h
    exact submit_testAndSetRequest_of_ne K _ ctl.commandByte setBits clearBits h

/-- Whenever `setCommandByte` returns, its last pass is one whose comparison succeeded
and wrote the new byte, and every earlier pass failed its comparison and wrote nothing. -/
theorem setCommandByte_passes (K : Constants) (setBits clearBits : Nat) :
    ∀ (fuel : Nat) (ctl : Controller) (schedule : List (List Nat)) (ctl' : Controller)
      (passes : List Iteration),
      setCommandByte K setBits clearBits fuel ctl schedule = some (ctl', passes) →
      ∃ front last, passes = front ++ [last]
        ∧ last.commandsCount = 4 ∧ last.before = last.commandByte
        ∧ last.after = commandByteNew last.before setBits clearBits
        ∧ ctl'.commandByte = last.after
        ∧ ∀ it ∈ front, it.commandsCount ≠ 4 ∧ it.before ≠ it.commandByte
          ∧ it.after = it.before := by
  intro fuel
  induction fuel with
  | zero =>
    intro ctl schedule ctl' passes h
    simp [setCommandByte] at h
  | succ fuel ih =>
    intro ctl schedule ctl' passes h
    obtain ⟨b1, -, -, b4, b5, b6⟩ :=
      setCommandByteBody_spec K setBits clearBits ctl (schedule.headD [])
    rw [setCommandByte] at h
    by_cases heq : (setCommandByteBody K setBits clearBits ctl (schedule.headD [])).2.before
        = ctl.commandByte
    · obtain ⟨c4, cw⟩ := b5 heq
      rw [if_neg (by rw [c4]; decide)] at h
      simp only [Option.some.injEq, Prod.mk.injEq] at h
      obtain ⟨h1, h2⟩ := h
      refine ⟨[], _, by rw [← h2]; rfl, c4, by rw [heq, b1], ?_, by rw [← h1, b4], ?_⟩
      · rw [cw, heq]
      · intro it hit
        cases hit
    · obtain ⟨c1, cw⟩ := b6 heq
      rw [if_pos (by rw [c1]; decide)] at h
      cases hrec : setCommandByte K setBits clearBits fuel
          (setCommandByteBody K setBits clearBits ctl (schedule.headD [])).1 schedule.tail with
      | none => rw [hrec] at h; cases h
      | some run =>
        obtain ⟨ctl'', passes'⟩ := run
        rw [hrec] at h
        simp only [Option.some.injEq, Prod.mk.injEq] at h
        obtain ⟨h1, h2⟩ := h
        obtain ⟨front, last, e, l1, l2, l3, l4, l5⟩ := ih _ _ _ _ hrec
        refine ⟨_ :: front, last, by rw [← h2, e]; rfl, l1, l2, l3, by rw [← h1]; exact l4, ?_⟩
        intro it hit
        rcases List.mem_cons.mp hit with hit | hit
        · subst hit
          exact ⟨by rw [c1]; decide, by rw [b1]; exact heq, cw⟩
        · exact l5 it hit

/-- One more pass than the schedule has entries is enough fuel for `setCommandByte`. -/
theorem setCommandByte_returns (K : Constants) (setBits clearBits : Nat) :
    ∀ (schedule : List (List Nat)) (ctl : Controller),
      ∃ run, setCommandByte K setBits clearBits (schedule.length + 1) ctl schedule
        = some run := by
  intro schedule
  induction schedule with
  | nil =>
    intro ctl
    obtain ⟨-, -, b3, -, b5, -⟩ := setCommandByteBody_spec K setBits clearBits ctl []
    obtain ⟨c4, -⟩ := b5 b3
    rw [List.length_nil, setCommandByte, List.headD_nil, if_neg (by rw [c4]; decide)]
    exact ⟨_, rfl⟩
  | cons writes rest ih =>
    intro ctl
    rw [List.length_cons, setCommandByte]
    by_cases hc : (setCommandByteBody K setBits clearBits ctl
        ((writes :: rest).headD [])).2.commandsCount ≠ 4
    · rw [if_pos hc]
      obtain ⟨run, hrun⟩ := ih (setCommandByteBody K setBits clearBits ctl
        ((writes :: rest).headD [])).1
      rw [List.tail_cons, hrun]
      exact ⟨_, rfl⟩
    · rw [if_neg hc]
      exact ⟨_, rfl⟩

/-- The bits of the new command byte. -/
theorem commandByteNew_testBit (commandByte setBits clearBits i : Nat) :
    (commandByteNew commandByte setBits clearBits).testBit i
      = (decide (i < 8) && ((commandByte.testBit i || setBits.testBit i)
          && (decide (i < 32) != clearBits.testBit i))) := by
  have e1 : (256 : Nat) = 2 ^ 8 := by norm_num
  have e2 : (0xFFFFFFFF : Nat) = 2 ^ 32 - 1 := by norm_num
  rw [commandByteNew, e1, e2, Nat.testBit_mod_two_pow, Nat.testBit_and, Nat.testBit_or,
    Nat.testBit_xor, Nat.testBit_two_pow_sub_one]

/-- A byte has no bit from 8 on. -/
theorem testBit_of_byte (b i : Nat) (hb : b < 256) (hi : 8 ≤ i) : b.testBit i = false := by
  apply Nat.testBit_lt_two_pow
  calc b < 2 ^ 8 := by omega
    _ ≤ 2 ^ i := Nat.pow_le_pow_right (by norm_num) hi

/-- After writes by other parties the register holds the last value written, and its
old value when there was none. -/
theorem externalWrites_commandByte (ctl : Controller) (writes : List Nat) :
    (externalWrites ctl writes).commandByte = (writes.getLast?).getD ctl.commandByte := by
  induction writes generalizing ctl with
  | nil => rfl
  | cons v rest ih =>
    rw [externalWrites, ih]
    cases rest with
    | nil => rfl
    | cons w r =>
      rw [List.getLast?_cons_cons, List.getLast?_eq_getLast (w :: r) (List.cons_ne_nil w r)]
      rfl

/-- The writes of the pass after the first are those the tail of the schedule starts
with. -/
theorem schedule_getD_succ (schedule : List (List Nat)) (k : Nat) :
    schedule.tail.getD k [] = schedule.getD (k + 1) [] := by
  cases schedule with
  | nil => rfl
  | cons a rest => rfl

/-- The passes `setCommandByte` makes, pinned to the register it starts from and to the
schedule of writes by other parties. -/
theorem setCommandByte_trace (K : Constants) (setBits clearBits : Nat) :
    ∀ (fuel : Nat) (ctl : Controller) (schedule : List (List Nat)) (ctl' : Controller)
      (passes : List Iteration),
      setCommandByte K setBits clearBits fuel ctl schedule = some (ctl', passes) →
      ∃ front last, passes = front ++ [last]
        ∧ passes.map Iteration.commandByte = ctl.commandByte :: front.map Iteration.after
        ∧ (∀ k it, passes[k]? = some it →
            it.before = ((schedule.getD k []).getLast?).getD it.commandByte)
        ∧ (∀ it ∈ passes, it.request = testAndSetRequest K it.commandByte setBits clearBits)
        ∧ (∀ it ∈ front, it.before ≠ it.commandByte ∧ it.commandsCount ≠ 4
            ∧ it.after = it.before)
        ∧ last.before = last.commandByte ∧ last.commandsCount = 4
        ∧ last.after = commandByteNew last.before setBits clearBits
        ∧ ctl'.commandByte = last.after := by
  intro fuel
  induction fuel with
  | zero =>
    intro ctl schedule ctl' passes h
    simp [setCommandByte] at h
  | succ fuel ih =>
    intro ctl schedule ctl' passes h
    obtain ⟨b1, b2, b3, b4, b5, b6⟩ :=
      setCommandByteBody_spec K setBits clearBits ctl (schedule.headD [])
    rw [externalWrites_commandByte] at b3
    have hhead : schedule.headD [] = schedule.getD 0 [] := by
      cases schedule <;> rfl
    rw [setCommandByte] at h
    by_cases heq : (setCommandByteBody K setBits clearBits ctl (schedule.headD [])).2.before
        = ctl.commandByte
    · obtain ⟨c4, cw⟩ := b5 heq
      rw [if_neg (by rw [c4]; decide)] at h
      simp only [Option.some.injEq, Prod.mk.injEq] at h
      obtain ⟨h1, h2⟩ := h
      subst h2
      refine ⟨[], _, rfl, ?_, ?_, ?_, ?_, by rw [heq, b1], c4, by rw [cw, heq], by rw [← h1, b4]⟩
      · simp only [List.nil_append, List.map_cons, List.map_nil, b1]
      · intro k it hk
        cases k with
        | zero =>
          simp only [List.getElem?_cons_zero, Option.some.injEq] at hk
          subst hk
          rw [b3, b1, hhead]
        | succ j => simp at hk
      · intro it hit
        simp only [List.mem_singleton] at hit
        subst hit
        rw [b2, b1]
      · intro it hit
        cases hit
    · obtain ⟨c1, cw⟩ := b6 heq
      rw [if_pos (by rw [c1]; decide)] at h
      cases hrec : setCommandByte K setBits clearBits fuel
          (setCommandByteBody K setBits clearBits ctl (schedule.headD [])).1 schedule.tail with
      | none => rw [hrec] at h; cases h
      | some run =>
        obtain ⟨ctl'', passes'⟩ := run
        rw [hrec] at h
        simp only [Option.some.injEq, Prod.mk.injEq] at h
        obtain ⟨h1, h2⟩ := h
        subst h1 h2
        obtain ⟨front, last, e, t1, t2, t3, t4, l1, l2, l3, l4⟩ := ih _ _ _ _ hrec
        refine ⟨_ :: front, last, by rw [e]; rfl, ?_, ?_, ?_, ?_, l1, l2, l3, l4⟩
        · rw [List.map_cons, t1, b1, b4, List.map_cons]
        · intro k it hk
          cases k with
          | zero =>
            simp only [List.getElem?_cons_zero, Option.some.injEq] at hk
            subst hk
            rw [b3, b1, hhead]
          | succ j =>
            rw [List.getElem?_cons_succ] at hk
            rw [t2 j it hk, schedule_getD_succ]
        · intro it hit
          rcases List.mem_cons.mp hit with hit | hit
          · subst hit
            rw [b2, b1]
          · exact t3 it hit
        · intro it hit
          rcases List.mem_cons.mp hit with hit | hit
          · subst hit
            exact ⟨by rw [b1]; exact heq, by rw [c1]; decide, cw⟩
          · exact t4 it hit

/-- A failed pass had a write by another party, so there are at most as many failed
passes as the schedule has entries. -/
theorem front_length_le (schedule : List (List Nat)) (front : List Iteration)
    (last : Iteration)
    (h2 : ∀ k it, (front ++ [last])[k]? = some it →
      it.before = ((schedule.getD k []).getLast?).getD it.commandByte)
    (h4 : ∀ it ∈ front, it.before ≠ it.commandByte ∧ it.commandsCount ≠ 4
      ∧ it.after = it.before) :
    front.length ≤ schedule.length := by
  by_contra hlt
  have hk : schedule.length < front.length := by omega
  have hget : (front ++ [last])[schedule.length]? = some (front.get ⟨schedule.length, hk⟩) := by
    rw [List.getElem?_append_left hk, List.getElem?_eq_getElem hk]
    rfl
  have hb := h2 _ _ hget
  rw [List.getD_eq_default _ _ (Nat.le_refl _)] at hb
  exact (h4 _ (List.get_mem front schedule.length hk)).1 hb

/-- C13: in the controller model, the test-and-set request completes with
`commandsCount` 4 exactly when the register holds the compared byte. For every register
content and every schedule of writes by other parties, `setCommandByte` returns within
one pass more than the schedule has entries. Whenever it returns, its passes are these:
the first pass reads the register it started from and every later pass reads what the
pass before left; the register immediately before the test-and-set request of pass `k`
is the last value another party wrote during that pass, or the byte read if there was
no such write; each pass submits the test-and-set request for the byte it read; every
pass but the last found a value other than the byte it read, ended with `commandsCount`
other than 4 and left the register as it was; the last pass found the byte it read,
ended with `commandsCount` 4 and wrote `(v | setBits) & ~clearBits` in 8 bits, `v` being
that value; and the register is left with the byte written. There are at most as many
failed passes as the schedule has entries. -/
theorem C13_command_byte_retry (K : Constants) (setBits clearBits : Nat) (ctl : Controller)
    (schedule : List (List Nat)) :
    (∀ ctl2 commandByte,
        (submitRequestAndBlock K ctl2
          (testAndSetRequest K commandByte setBits clearBits)).2.commandsCount = 4
        ↔ ctl2.commandByte = commandByte)
      ∧ (∃ run, setCommandByte K setBits clearBits (schedule.length + 1) ctl schedule
          = some run)
      ∧ (∀ fuel ctl' passes,
          setCommandByte K setBits clearBits fuel ctl schedule = some (ctl', passes) →
          ∃ front last, passes = front ++ [last]
            ∧ front.length ≤ schedule.length
            ∧ passes.map Iteration.commandByte
              = ctl.commandByte :: front.map Iteration.after
            ∧ (∀ k it, passes[k]? = some it →
                it.before = ((schedule.getD k []).getLast?).getD it.commandByte)
            ∧ (∀ it ∈ passes, it.request
                = ⟨[⟨.kPS2C_WriteCommandPort, K.kCP_GetCommandByte⟩,
                    ⟨.kPS2C_ReadDataPortAndCompare, it.commandByte⟩,
                    ⟨.kPS2C_WriteCommandPort, K.kCP_SetCommandByte⟩,
                    ⟨.kPS2C_WriteDataPort,
                      ((it.commandByte ||| setBits) &&& (0xFFFFFFFF ^^^ clearBits)) % 256⟩],
                   4⟩)
            ∧ (∀ it ∈ front, it.before ≠ it.commandByte ∧ it.commandsCount ≠ 4
                ∧ it.after = it.before)
            ∧ last.before = last.commandByte ∧ last.commandsCount = 4
            ∧ last.after = ((last.before ||| setBits) &&& (0xFFFFFFFF ^^^ clearBits)) % 256
            ∧ (∀ i, i < 8 → last.after.testBit i
                = ((last.before.testBit i || setBits.testBit i) && !clearBits.testBit i))
            ∧ last.after < 256
            ∧ ctl'.commandByte = last.after)
      ∧ (∀ writes v,
          (setCommandByteBody K setBits clearBits ctl (writes ++ [v])).2.before = v) := by
  refine ⟨?_, setCommandByte_returns K setBits clearBits schedule ctl, ?_, ?_⟩
  · intro ctl2 commandByte
    by_cases h : ctl2.commandByte = commandByte
    · simp only [h, iff_true]
      exact (submit_testAndSetRequest_of_eq K ctl2 commandByte setBits clearBits h).1
    · simp only [h, iff_false]
      rw [(submit_testAndSetRequest_of_ne K ctl2 commandByte setBits clearBits h).1]
      decide
  · intro fuel ctl' passes h
    obtain ⟨front, last, e, t1, t2, t3, t4, l1, l2, l3, l4⟩ :=
      setCommandByte_trace K setBits clearBits fuel ctl schedule ctl' passes h
    subst e
    refine ⟨front, last, rfl, front_length_le schedule front last t2 t4, t1, t2, t3, t4,
      l1, l2, l3, ?_, ?_, l4⟩
    · intro i hi
      have h32 : i < 32 := by omega
      rw [l3, commandByteNew_testBit]
      simp [hi, h32]
    · rw [l3]
      exact Nat.mod_lt _ (by norm_num)
  · intro writes v
    rw [(setCommandByteBody_spec K setBits clearBits ctl (writes ++ [v])).2.2.1]
    exact externalWrites_concat ctl writes v

/-- C14: in every pass through the loop of `setCommandByte`, the compare step of the
test-and-set request holds the byte just read and the write step holds
`(commandByte | setBits) & ~clearBits` in 8 bits: every bit of `clearBits` is 0 in it,
every bit of `setBits` that is not in `clearBits` is 1, and every bit in neither mask is
the bit of the byte read. -/
theorem C14_command_byte_new (K : Constants) (setBits clearBits : Nat) (ctl : Controller)
    (writes : List Nat) (hreg : ctl.commandByte < 256) (hset : setBits < 256) :
    (setCommandByteBody K setBits clearBits ctl writes).2.commandByte = ctl.commandByte
      ∧ (setCommandByteBody K setBits clearBits ctl writes).2.request
        = ⟨[⟨.kPS2C_WriteCommandPort, K.kCP_GetCommandByte⟩,
            ⟨.kPS2C_ReadDataPortAndCompare, ctl.commandByte⟩,
            ⟨.kPS2C_WriteCommandPort, K.kCP_SetCommandByte⟩,
            ⟨.kPS2C_WriteDataPort, commandByteNew ctl.commandByte setBits clearBits⟩], 4⟩
      ∧ commandByteNew ctl.commandByte setBits clearBits < 256
      ∧ (∀ i, clearBits.testBit i = true →
          (commandByteNew ctl.commandByte setBits clearBits).testBit i = false)
      ∧ (∀ i, setBits.testBit i = true → clearBits.testBit i = false →
          (commandByteNew ctl.commandByte setBits clearBits).testBit i = true)
      ∧ (∀ i, setBits.testBit i = false → clearBits.testBit i = false →
          (commandByteNew ctl.commandByte setBits clearBits).testBit i
            = ctl.commandByte.testBit i) := by
  obtain ⟨b1, b2, -⟩ := setCommandByteBody_spec K setBits clearBits ctl writes
  refine ⟨b1, b2, Nat.mod_lt _ (by norm_num), ?_, ?_, ?_⟩
  · intro i hc
    rw [commandByteNew_testBit, hc]
    by_cases h8 : i < 8
    · have h32 : i < 32 := by omega
      simp [h32]
    · simp [h8]
  · intro i hs hc
    have h8 : i < 8 := by
      by_contra h
      rw [testBit_of_byte setBits i hset (by omega)] at hs
      cases hs
    have h32 : i < 32 := by omega
    rw [commandByteNew_testBit, hs, hc]
    simp [h8, h32]
  · intro i hs hc
    rw [commandByteNew_testBit, hs, hc]
    by_cases h8 : i < 8
    · have h32 : i < 32 := by omega
      simp [h8, h32]
    · rw [testBit_of_byte ctl.commandByte i hreg (by omega)]
      simp [h8]

/-- Witness of C14: the register holds 0x55, the masks are 0x41 and 0x11 (they overlap
in bit 0); the byte written is 0x44. -/
theorem C14_command_byte_new_witness :
    ((0x55 : Nat) < 256 ∧ (0x41 : Nat) < 256)
      ∧ (setCommandByteBody exampleConstants 0x41 0x11 ⟨0x55, 0, false⟩ []).2.request
        = ⟨[⟨.kPS2C_WriteCommandPort, 0x20⟩, ⟨.kPS2C_ReadDataPortAndCompare, 0x55⟩,
            ⟨.kPS2C_WriteCommandPort, 0x60⟩, ⟨.kPS2C_WriteDataPort, 0x44⟩], 4⟩ :=
  ⟨⟨by decide, by decide⟩,
    (C14_command_byte_new exampleConstants 0x41 0x11 ⟨0x55, 0, false⟩ []
      (by decide) (by decide)).2.1⟩

/-! ## Claims C15 and C19: disabling the keyboard, the LEDs -/

/-- C15 (as amended): of the two driver operations that call `setKeyboardEnable(false)`,
`stop` also calls `setCommandByte(kCB_DisableKeyboardClock, kCB_EnableKeyboardIRQ)`, and
`setDevicePowerState(kPS2C_DisableDevice)` makes that one call and no other;
`setDevicePowerState` with any other argument does not call `setKeyboardEnable(false)`. -/
theorem C15_keyboard_disable (K : Constants) (_ledState : Nat) :
    stop K = [.setKeyboardEnable false,
              .setCommandByte K.kCB_DisableKeyboardClock K.kCB_EnableKeyboardIRQ]
      ∧ setDevicePowerState K _ledState K.kPS2C_DisableDevice = [.setKeyboardEnable false]
      ∧ (∀ whatToDo, whatToDo ≠ K.kPS2C_DisableDevice →
          DriverCall.setKeyboardEnable false ∉ setDevicePowerState K _ledState whatToDo) := by
  refine ⟨rfl, by simp [setDevicePowerState], ?_⟩
  intro whatToDo h
  unfold setDevicePowerState
  rw [if_neg h]
  split_ifs <;> simp

/-- Counterexample to C15 as stated: with the example constants,
`setDevicePowerState(kPS2C_DisableDevice)` calls `setKeyboardEnable(false)` and does not
call `setCommandByte(kCB_DisableKeyboardClock, kCB_EnableKeyboardIRQ)`. -/
theorem C15_counterexample :
    DriverCall.setKeyboardEnable false
        ∈ setDevicePowerState exampleConstants 0 exampleConstants.kPS2C_DisableDevice
      ∧ DriverCall.setCommandByte exampleConstants.kCB_DisableKeyboardClock
          exampleConstants.kCB_EnableKeyboardIRQ
        ∉ setDevicePowerState exampleConstants 0 exampleConstants.kPS2C_DisableDevice := by
  decide

/-- The bits of `bits | mask` in 8 bits. -/
theorem setBits8_testBit (bits mask i : Nat) :
    (setBits8 bits mask).testBit i = (decide (i < 8) && (bits.testBit i || mask.testBit i)) := by
  have e1 : (256 : Nat) = 2 ^ 8 := by norm_num
  rw [setBits8, e1, Nat.testBit_mod_two_pow, Nat.testBit_or]

/-- The bits of `bits & ~mask` in 8 bits. -/
theorem clearBits8_testBit (bits mask i : Nat) :
    (clearBits8 bits mask).testBit i
      = (decide (i < 8) && (bits.testBit i && (decide (i < 32) != mask.testBit i))) := by
  have e1 : (256 : Nat) = 2 ^ 8 := by norm_num
  have e2 : (0xFFFFFFFF : Nat) = 2 ^ 32 - 1 := by norm_num
  rw [clearBits8, e1, e2, Nat.testBit_mod_two_pow, Nat.testBit_and, Nat.testBit_xor,
    Nat.testBit_two_pow_sub_one]

/-- The bits of an LED state after one flag is switched. -/
theorem switched_testBit (bits mask : Nat) (locked : Bool) (i : Nat) (hi : i < 8) :
    (if locked then setBits8 bits mask else clearBits8 bits mask).testBit i
      = (if mask.testBit i then locked else bits.testBit i) := by
  have h32 : i < 32 := by omega
  cases locked
  · simp only [Bool.false_eq_true, if_false, clearBits8_testBit, hi, h32, decide_True,
      Bool.true_and]
    cases mask.testBit i <;> simp
  · simp only [if_true, setBits8_testBit, hi, decide_True, Bool.true_and]
    cases mask.testBit i <;> simp

/-- C19: `setAlphaLockFeedback(locked)` makes every bit of `_ledState` that is in
`kLED_CapsLock` equal to `locked` and leaves the other bits of the 8-bit `_ledState`
unchanged, and `setNumLockFeedback(locked)` does the same with `kLED_NumLock`; each
submits one set-LEDs request, whose third step writes the new `_ledState` to the data
port; and `setDevicePowerState(kPS2C_EnableDevice)` calls `setLEDs` with the `_ledState`
it finds. -/
theorem C19_led_feedback (K : Constants) (_ledState : Nat) (locked : Bool) (i : Nat)
    (hi : i < 8) :
    (setAlphaLockFeedback K _ledState locked).1.testBit i
        = (if K.kLED_CapsLock.testBit i then locked else _ledState.testBit i)
      ∧ (setAlphaLockFeedback K _ledState locked).2
        = [⟨[⟨.kPS2C_WriteDataPort, K.kDP_SetKeyboardLEDs⟩,
             ⟨.kPS2C_ReadDataPortAndCompare, K.kSC_Acknowledge⟩,
             ⟨.kPS2C_WriteDataPort, (setAlphaLockFeedback K _ledState locked).1⟩,
             ⟨.kPS2C_ReadDataPortAndCompare, K.kSC_Acknowledge⟩], 4⟩]
      ∧ (setNumLockFeedback K _ledState locked).1.testBit i
        = (if K.kLED_NumLock.testBit i then locked else _ledState.testBit i)
      ∧ (setNumLockFeedback K _ledState locked).2
        = [⟨[⟨.kPS2C_WriteDataPort, K.kDP_SetKeyboardLEDs⟩,
             ⟨.kPS2C_ReadDataPortAndCompare, K.kSC_Acknowledge⟩,
             ⟨.kPS2C_WriteDataPort, (setNumLockFeedback K _ledState locked).1⟩,
             ⟨.kPS2C_ReadDataPortAndCompare, K.kSC_Acknowledge⟩], 4⟩]
      ∧ (setAlphaLockFeedback K _ledState locked).1 < 256
      ∧ (setNumLockFeedback K _ledState locked).1 < 256
      ∧ (K.kPS2C_EnableDevice ≠ K.kPS2C_DisableDevice →
          setDevicePowerState K _ledState K.kPS2C_EnableDevice
            = [.setLEDs _ledState,
               .setCommandByte (K.kCB_EnableKeyboardIRQ ||| K.kCB_TranslateMode)
                 K.kCB_DisableKeyboardClock,
               .setKeyboardEnable true]) := by
  refine ⟨switched_testBit _ledState K.kLED_CapsLock locked i hi, rfl,
    switched_testBit _ledState K.kLED_NumLock locked i hi, rfl, ?_, ?_, ?_⟩
  · simp only [setAlphaLockFeedback, setBits8, clearBits8]
    split_ifs <;> exact Nat.mod_lt _ (by norm_num)
  · simp only [setNumLockFeedback, setBits8, clearBits8]
    split_ifs <;> exact Nat.mod_lt _ (by norm_num)
  · intro h
    simp [setDevicePowerState, h]

/-- Witness of C19: with the example constants and `_ledState` 0x02 (num lock lit),
locking caps lock gives 0x06, whose bit 2 is set, and the request carries 0x06. -/
theorem C19_led_feedback_witness :
    ((2 : Nat) < 8
      ∧ exampleConstants.kPS2C_EnableDevice ≠ exampleConstants.kPS2C_DisableDevice)
      ∧ (setAlphaLockFeedback exampleConstants 0x02 true).1 = 0x06
      ∧ (setAlphaLockFeedback exampleConstants 0x02 true).1.testBit 2 = true
      ∧ (setAlphaLockFeedback exampleConstants 0x02 true).2
        = [⟨[⟨.kPS2C_WriteDataPort, 0xED⟩, ⟨.kPS2C_ReadDataPortAndCompare, 0xFA⟩,
             ⟨.kPS2C_WriteDataPort, 0x06⟩, ⟨.kPS2C_ReadDataPortAndCompare, 0xFA⟩], 4⟩]
      ∧ setDevicePowerState exampleConstants 0x06 exampleConstants.kPS2C_EnableDevice
        = [.setLEDs 0x06, .setCommandByte 0x41 0x10, .setKeyboardEnable true] :=
  ⟨⟨by decide, by decide⟩, by decide,
    (C19_led_feedback exampleConstants 0x02 true 2 (by decide)).1,
    (C19_led_feedback exampleConstants 0x02 true 2 (by decide)).2.1,
    (C19_led_feedback exampleConstants 0x06 true 2 (by decide)).2.2.2.2.2.2 (by decide)⟩

/-! ## Claims C16 - C18 and C20: sleep, print screen, unrecognised codes, the result -/

/-- The power notification of a call is the one of the conversion. -/
theorem dispatch_sleepNow (host : Host) (kbd : GenericPS2Keyboard) (scanCode : Nat) :
    (dispatchKeyboardEventWithScancode host kbd scanCode).sleepNow
      = (scanCodeToKeyCode host kbd scanCode).sleepNow := by
  unfold dispatchKeyboardEventWithScancode
  dsimp only
  split
  · rfl
  · split_ifs <;> simp only [deliver_sleepNow]

set_option maxRecDepth 100000 in
/-- The only byte with the low seven bits 0x5F and the release flag clear is 0x5F. -/
theorem sleep_make_byte : ∀ scanCode, scanCode < 256 →
    ((stripUpBit scanCode = 0x5f ∧ hasUpBit scanCode = false) ↔ scanCode = 0x5F) := by
  decide

/-- A code outside the table falls into the `default` arm. -/
theorem extendedKeyCode_of_not_mem (windowsAltSwap : Bool) (code : Nat)
    (h : code ∉ extendedTableCodes) : extendedKeyCode windowsAltSwap code = none := by
  simp only [extendedTableCodes, List.mem_cons, List.mem_singleton, List.mem_nil_iff,
    or_false, not_or] at h
  obtain ⟨h1, h2, h3, h4, h5, h6, h7, h8, h9, h10, h11, h12, h13, h14, h15, h16, h17, h18,
    h19, h20, h21, h22, h23, h24⟩ := h
  simp [extendedKeyCode, h1, h2, h3, h4, h5, h6, h7, h8, h9, h10, h11, h12, h13, h14, h15,
    h16, h17, h18, h19, h20, h21, h22, h23, h24]

/-- A call that returns false delivers no event. -/
theorem events_of_result_false (host : Host) (kbd : GenericPS2Keyboard) (scanCode : Nat)
    (h : (dispatchKeyboardEventWithScancode host kbd scanCode).result = false) :
    (dispatchKeyboardEventWithScancode host kbd scanCode).events = [] := by
  cases hk : (scanCodeToKeyCode host kbd scanCode).keyCode with
  | none => rw [dispatch_of_none host kbd scanCode hk]
  | some c =>
    by_cases hc : c = 0
    · subst hc
      rw [dispatch_of_zero host kbd scanCode hk]
    · cases hb : hasUpBit scanCode with
      | true =>
        rw [dispatch_break host kbd scanCode c hk hc hb, deliver_result] at h
        cases h
      | false =>
        cases hd : KBV_IS_KEYDOWN c kbd._keyBitVector with
        | true => rw [dispatch_make_of_down host kbd scanCode c hk hc hb hd]
        | false =>
          rw [dispatch_make_of_up host kbd scanCode c hk hc hb hd, deliver_result] at h
          cases h

/-- C16: for every byte, a call requests the sleep-now power notification if and only
if a power root domain is present, the escape counter is 1 and the byte is 0x5F; with the
escape counter at 1, a call on 0x5F or on 0xDF returns false, delivers no event, changes
no key bit and leaves the decoder in Normal. -/
theorem C16_sleep_code (host : Host) (kbd : GenericPS2Keyboard) (scanCode : Nat)
    (hbyte : scanCode < 256) :
    ((dispatchKeyboardEventWithScancode host kbd scanCode).sleepNow = true
        ↔ (host.rootDomain = true ∧ kbd._extendCount = 1 ∧ scanCode = 0x5F))
      ∧ (kbd._extendCount = 1 → (scanCode = 0x5F ∨ scanCode = 0xDF) →
        (dispatchKeyboardEventWithScancode host kbd scanCode).result = false
          ∧ (dispatchKeyboardEventWithScancode host kbd scanCode).events = []
          ∧ (dispatchKeyboardEventWithScancode host kbd scanCode).kbd
            = { kbd with _extendCount := 0 }) := by
  refine ⟨?_, ?_⟩
  · rw [dispatch_sleepNow]
    have hs := sleep_make_byte scanCode hbyte
    constructor
    · intro h
      unfold scanCodeToKeyCode at h
      simp only [kSC_Extend, kSC_Pause] at h
      split_ifs at h with hE hP hN hX
      · have hx : kbd._extendCount = 1 := by omega
        simp only [Bool.and_eq_true, decide_eq_true_eq, Bool.not_eq_true'] at h
        exact ⟨h.2, hx, hs.1 ⟨h.1.1, h.1.2⟩⟩
    · rintro ⟨hr, hx, h5⟩
      subst h5
      have e1 : stripUpBit 0x5F = 0x5F := by decide
      have e2 : hasUpBit 0x5F = false := by decide
      simp [scanCodeToKeyCode, kSC_Extend, kSC_Pause, hx, hr, e1, e2]
  · intro hx hsc
    have hE : scanCode ≠ 0xE0 := by omega
    have hP : scanCode ≠ 0xE1 := by omega
    have hstrip : stripUpBit scanCode = 0x5f := by
      rcases hsc with h | h <;> subst h <;> decide
    have hk : (scanCodeToKeyCode host kbd scanCode).keyCode = some 0 := by
      rw [scanCodeToKeyCode_extended host kbd scanCode hx hE hP, hstrip]
      simp [extendedKeyCode]
    have hx0 : (scanCodeToKeyCode host kbd scanCode).extendCount = 0 := by
      rw [scanCodeToKeyCode_extended host kbd scanCode hx hE hP]
    rw [dispatch_of_zero host kbd scanCode hk, afterConversion, hx0]
    exact ⟨rfl, rfl, rfl⟩

/-- Witness of C16: on the example host one byte after the prefix E0, the byte 0x5F
requests the notification and is dropped; the byte 0xDF is dropped without a request. -/
theorem C16_sleep_code_witness :
    ((0x5F : Nat) < 256 ∧ (0xDF : Nat) < 256)
      ∧ (dispatchKeyboardEventWithScancode exampleHost
          (extendPending 0x39 false false) 0x5F).sleepNow = true
      ∧ (dispatchKeyboardEventWithScancode exampleHost
          (extendPending 0x39 false false) 0x5F).result = false
      ∧ ¬ (dispatchKeyboardEventWithScancode exampleHost
          (extendPending 0x39 false false) 0xDF).sleepNow = true
      ∧ (dispatchKeyboardEventWithScancode exampleHost
          (extendPending 0x39 false false) 0xDF).result = false :=
  ⟨⟨by decide, by decide⟩,
    (C16_sleep_code exampleHost (extendPending 0x39 false false) 0x5F (by decide)).1.2
      ⟨rfl, rfl, rfl⟩,
    ((C16_sleep_code exampleHost (extendPending 0x39 false false) 0x5F (by decide)).2
      rfl (Or.inl rfl)).1,
    fun h => absurd
      ((C16_sleep_code exampleHost (extendPending 0x39 false false) 0xDF (by decide)).1.1
        h).2.2 (by decide),
    ((C16_sleep_code exampleHost (extendPending 0x39 false false) 0xDF (by decide)).2
      rfl (Or.inr rfl)).1⟩

/-- C17 (as amended): one byte after the prefix E0, a byte whose low seven bits are 0x2A
(the PrintScreen header or trailer) is discarded: the call returns false, delivers no
event, requests no power notification and changes nothing but the escape counter. A byte
whose low seven bits are 0x37 (PrintScreen) is not discarded: it converts to the key code
0x6E, so that its break, and its make when the key 0x6E is up, is an accepted
transition, for which the call returns true and updates the bit of 0x6E. -/
theorem C17_print_screen (host : Host) (kbd : GenericPS2Keyboard) (scanCode : Nat)
    (hbyte : scanCode < 256) (hx : kbd._extendCount = 1) :
    (scanCode % 128 = 0x2A →
        dispatchKeyboardEventWithScancode host kbd scanCode
          = ⟨false, { kbd with _extendCount := 0 }, [], false⟩)
      ∧ (scanCode % 128 = 0x37 →
        (scanCodeToKeyCode host kbd scanCode).keyCode = some 0x6E
          ∧ ((hasUpBit scanCode = true ∨ KBV_IS_KEYDOWN 0x6E kbd._keyBitVector = false) →
            (dispatchKeyboardEventWithScancode host kbd scanCode).result = true
              ∧ (dispatchKeyboardEventWithScancode host kbd scanCode).kbd._keyBitVector
                = updatedKeyBitVector kbd scanCode 0x6E)) := by
  have hm := stripUpBit_eq_mod scanCode hbyte
  refine ⟨?_, ?_⟩
  · intro h2a
    have hE : scanCode ≠ 0xE0 := by omega
    have hP : scanCode ≠ 0xE1 := by omega
    have hd := scanCodeToKeyCode_extended host kbd scanCode hx hE hP
    rw [hm, h2a] at hd
    have hk : (scanCodeToKeyCode host kbd scanCode).keyCode = none := by
      rw [hd]
      simp [extendedKeyCode]
    rw [dispatch_of_none host kbd scanCode hk, afterConversion, hd]
    simp [extendedKeyCode]
  · intro h37
    have hE : scanCode ≠ 0xE0 := by omega
    have hP : scanCode ≠ 0xE1 := by omega
    have hd := scanCodeToKeyCode_extended host kbd scanCode hx hE hP
    rw [hm, h37] at hd
    have hk : (scanCodeToKeyCode host kbd scanCode).keyCode = some 0x6E := by
      rw [hd]
      simp [extendedKeyCode]
    refine ⟨hk, ?_⟩
    intro hacc
    rw [dispatch_of_accepted host kbd scanCode 0x6E ⟨hk, by decide, hacc⟩, deliver_result,
      deliver_keyBitVector]
    exact ⟨rfl, rfl⟩

/-- Witness of C17: on the example host one byte after the prefix E0, the byte 0x2A is
discarded, and the byte 0x37 converts to the key code 0x6E and is accepted. -/
theorem C17_print_screen_witness :
    ((0x2A : Nat) < 256 ∧ (0x37 : Nat) < 256 ∧ (extendPending 0x39 false false)._extendCount = 1)
      ∧ (dispatchKeyboardEventWithScancode exampleHost
          (extendPending 0x39 false false) 0x2A).result = false
      ∧ (scanCodeToKeyCode exampleHost (extendPending 0x39 false false) 0x37).keyCode
        = some 0x6E
      ∧ (dispatchKeyboardEventWithScancode exampleHost
          (extendPending 0x39 false false) 0x37).result = true :=
  ⟨⟨by decide, by decide, rfl⟩,
    congrArg Outcome.result
      ((C17_print_screen exampleHost (extendPending 0x39 false false) 0x2A (by decide) rfl).1
        (by decide)),
    ((C17_print_screen exampleHost (extendPending 0x39 false false) 0x37 (by decide) rfl).2
      (by decide)).1,
    (((C17_print_screen exampleHost (extendPending 0x39 false false) 0x37 (by decide) rfl).2
      (by decide)).2 (Or.inr rfl)).1⟩

/-- Counterexample to C17 as stated: on the example host one byte after the prefix E0
with all keys up, the byte 0x37, whose low seven bits are 0x37, returns true, delivers an
event and sets the bit of the key code 0x6E. -/
theorem C17_counterexample :
    (extendPending 0x39 false false)._extendCount = 1
      ∧ 0x37 % 128 = 0x37
      ∧ (dispatchKeyboardEventWithScancode exampleHost
          (extendPending 0x39 false false) 0x37).result = true
      ∧ (dispatchKeyboardEventWithScancode exampleHost
          (extendPending 0x39 false false) 0x37).events = [⟨0x6E, true, 1000⟩]
      ∧ KBV_IS_KEYDOWN 0x6E (extendPending 0x39 false false)._keyBitVector = false
      ∧ KBV_IS_KEYDOWN 0x6E (dispatchKeyboardEventWithScancode exampleHost
          (extendPending 0x39 false false) 0x37).kbd._keyBitVector = true := by
  decide

/-- C18: with the escape counter at 1, after a call on any byte other than 0xE0 and 0xE1
the escape counter is 0; and if the low seven bits of the byte are not among the codes to
which the extended table assigns a key code, the call returns false, delivers no event,
requests no power notification and leaves the key bit vector, the latch flags and the
configuration as they were. -/
theorem C18_extended_returns_to_normal (host : Host) (kbd : GenericPS2Keyboard)
    (scanCode : Nat) (hbyte : scanCode < 256) (hx : kbd._extendCount = 1)
    (hE : scanCode ≠ 0xE0) (hP : scanCode ≠ 0xE1) :
    (dispatchKeyboardEventWithScancode host kbd scanCode).kbd._extendCount = 0
      ∧ (scanCode % 128 ∉ extendedTableCodes →
        dispatchKeyboardEventWithScancode host kbd scanCode
          = ⟨false, { kbd with _extendCount := 0 }, [], false⟩) := by
  have hm := stripUpBit_eq_mod scanCode hbyte
  have hd := scanCodeToKeyCode_extended host kbd scanCode hx hE hP
  refine ⟨?_, ?_⟩
  · rw [dispatch_extendCount, hd]
  · intro hnot
    have hnone := extendedKeyCode_of_not_mem kbd._windowsAltSwap (scanCode % 128) hnot
    have h5f : scanCode % 128 ≠ 0x5f := by
      intro h
      rw [h] at hnot
      exact hnot (by decide)
    rw [hm, hnone] at hd
    have hk : (scanCodeToKeyCode host kbd scanCode).keyCode = none := by rw [hd]
    rw [dispatch_of_none host kbd scanCode hk, afterConversion, hd]
    simp [h5f]

/-- Witness of C18: on the example host one byte after the prefix E0, the byte 0x01,
which the extended table does not list, is dropped and the decoder is back in Normal. -/
theorem C18_extended_returns_to_normal_witness :
    ((0x01 : Nat) < 256 ∧ (extendPending 0x39 false false)._extendCount = 1
      ∧ (0x01 : Nat) ≠ 0xE0 ∧ (0x01 : Nat) ≠ 0xE1 ∧ 0x01 % 128 ∉ extendedTableCodes)
      ∧ (dispatchKeyboardEventWithScancode exampleHost
          (extendPending 0x39 false false) 0x01).kbd._extendCount = 0
      ∧ (dispatchKeyboardEventWithScancode exampleHost
          (extendPending 0x39 false false) 0x01).result = false :=
  ⟨⟨by decide, rfl, by decide, by decide, by decide⟩,
    (C18_extended_returns_to_normal exampleHost (extendPending 0x39 false false) 0x01
      (by decide) rfl (by decide) (by decide)).1,
    congrArg Outcome.result
      ((C18_extended_returns_to_normal exampleHost (extendPending 0x39 false false) 0x01
        (by decide) rfl (by decide) (by decide)).2 (by decide))⟩

/-- C20, the code at the failing input: a call that delivers an event returns true, but
not conversely: on the example host with function-key remapping enabled, the make E0 5D,
whose translated code is 0x72, returns true and delivers no event, and so does the make
0x39 when the caps-lock target is configured as 0xA4. -/
theorem C20_result_without_event (host : Host) (kbd : GenericPS2Keyboard) (scanCode : Nat) :
    ((dispatchKeyboardEventWithScancode host kbd scanCode).events ≠ [] →
        (dispatchKeyboardEventWithScancode host kbd scanCode).result = true)
      ∧ (dispatchKeyboardEventWithScancode exampleHost
          (extendPending 0x39 false true) 0x5D).result = true
      ∧ (dispatchKeyboardEventWithScancode exampleHost
          (extendPending 0x39 false true) 0x5D).events = []
      ∧ (dispatchKeyboardEventWithScancode exampleHost (init 0xA4 false true) 0x39).result
        = true
      ∧ (dispatchKeyboardEventWithScancode exampleHost (init 0xA4 false true) 0x39).events
        = [] := by
  refine ⟨?_, by decide, by decide, by decide, by decide⟩
  intro hev
  cases hr : (dispatchKeyboardEventWithScancode host kbd scanCode).result with
  | true => rfl
  | false => exact absurd (events_of_result_false host kbd scanCode hr) hev

/-! ## Claims C21 - C23: frame of the key bit vector, bounds, the escape counter -/

/-- The key bit vector after a call: untouched unless the scan code converts to a
nonzero key code, and then only the bit of that code can differ. -/
theorem dispatch_keyBitVector (host : Host) (kbd : GenericPS2Keyboard) (scanCode : Nat) :
    ((dispatchKeyboardEventWithScancode host kbd scanCode).result = false →
        (dispatchKeyboardEventWithScancode host kbd scanCode).kbd._keyBitVector
          = kbd._keyBitVector)
      ∧ ∀ m, KBV_IS_KEYDOWN m
            (dispatchKeyboardEventWithScancode host kbd scanCode).kbd._keyBitVector
          ≠ KBV_IS_KEYDOWN m kbd._keyBitVector →
        (scanCodeToKeyCode host kbd scanCode).keyCode = some m ∧ m ≠ 0 := by
  cases hk : (scanCodeToKeyCode host kbd scanCode).keyCode with
  | none =>
    rw [dispatch_of_none host kbd scanCode hk]
    exact ⟨fun _ => rfl, fun m hm => absurd rfl hm⟩
  | some c =>
    by_cases hc : c = 0
    · subst hc
      rw [dispatch_of_zero host kbd scanCode hk]
      exact ⟨fun _ => rfl, fun m hm => absurd rfl hm⟩
    · cases hb : hasUpBit scanCode with
      | true =>
        rw [dispatch_break host kbd scanCode c hk hc hb]
        refine ⟨fun h => ?_, fun m hm => ?_⟩
        · rw [deliver_result] at h
          cases h
        · rw [deliver_keyBitVector] at hm
          by_cases hmc : m = c
          · subst hmc
            exact ⟨rfl, hc⟩
          · exact absurd (by simp [KBV_IS_KEYDOWN, KBV_KEYUP, hmc]) hm
      | false =>
        cases hd : KBV_IS_KEYDOWN c kbd._keyBitVector with
        | true =>
          rw [dispatch_make_of_down host kbd scanCode c hk hc hb hd]
          exact ⟨fun _ => rfl, fun m hm => absurd rfl hm⟩
        | false =>
          rw [dispatch_make_of_up host kbd scanCode c hk hc hb hd]
          refine ⟨fun h => ?_, fun m hm => ?_⟩
          · rw [deliver_result] at h
            cases h
          · rw [deliver_keyBitVector] at hm
            by_cases hmc : m = c
            · subst hmc
              exact ⟨rfl, hc⟩
            · exact absurd (by simp [KBV_IS_KEYDOWN, KBV_KEYDOWN, hmc]) hm

/-- C21: for every driver state, configuration and byte: if the call returns false the
key bit vector is unchanged; and a bit of the key bit vector that differs after the call
is the bit of the nonzero key code the byte converted to, so at most one bit changes. -/
theorem C21_key_bit_frame (host : Host) (kbd : GenericPS2Keyboard) (scanCode : Nat) :
    ((dispatchKeyboardEventWithScancode host kbd scanCode).result = false →
        (dispatchKeyboardEventWithScancode host kbd scanCode).kbd._keyBitVector
          = kbd._keyBitVector)
      ∧ (∀ m, KBV_IS_KEYDOWN m
            (dispatchKeyboardEventWithScancode host kbd scanCode).kbd._keyBitVector
          ≠ KBV_IS_KEYDOWN m kbd._keyBitVector →
        (scanCodeToKeyCode host kbd scanCode).keyCode = some m ∧ m ≠ 0)
      ∧ (∀ m n, KBV_IS_KEYDOWN m
            (dispatchKeyboardEventWithScancode host kbd scanCode).kbd._keyBitVector
          ≠ KBV_IS_KEYDOWN m kbd._keyBitVector →
        KBV_IS_KEYDOWN n
            (dispatchKeyboardEventWithScancode host kbd scanCode).kbd._keyBitVector
          ≠ KBV_IS_KEYDOWN n kbd._keyBitVector → m = n) := by
  obtain ⟨h1, h2⟩ := dispatch_keyBitVector host kbd scanCode
  refine ⟨h1, h2, ?_⟩
  intro m n hm hn
  have e1 := (h2 m hm).1
  have e2 := (h2 n hn).1
  rw [e1] at e2
  exact Option.some.inj e2

set_option maxRecDepth 100000 in
/-- The key codes the extended table assigns are below 128, swap enabled or not. -/
theorem extendedKeyCode_table_le : ∀ windowsAltSwap : Bool, ∀ code ∈ extendedTableCodes,
    (extendedKeyCode windowsAltSwap code).getD 0 ≤ 127 := by
  decide

/-- The key codes of the extended table are below 128. -/
theorem extendedKeyCode_le (windowsAltSwap : Bool) (code c : Nat)
    (h : extendedKeyCode windowsAltSwap code = some c) : c ≤ 127 := by
  by_cases hmem : code ∈ extendedTableCodes
  · have := extendedKeyCode_table_le windowsAltSwap code hmem
    rw [h] at this
    exact this
  · rw [extendedKeyCode_of_not_mem windowsAltSwap code hmem] at h
    cases h

/-- C22: for every decoder state, configuration and byte, a key code with which the call
reaches the key bit vector and the `PS2ToADBMap` lookup, that is the nonzero key code the
byte converted to, lies between 1 and 127. -/
theorem C22_key_code_in_bounds (host : Host) (kbd : GenericPS2Keyboard) (scanCode c : Nat)
    (hbyte : scanCode < 256)
    (h : (scanCodeToKeyCode host kbd scanCode).keyCode = some c) (hc : c ≠ 0) :
    1 ≤ c ∧ c ≤ 127 ∧ c < 128 := by
  obtain ⟨hE, hP, hx, -⟩ := of_keyCode_eq_some host kbd scanCode c h
  have hle : c ≤ 127 := by
    rcases hx with hx | hx
    · rw [scanCodeToKeyCode_normal host kbd scanCode hx hE hP,
        stripUpBit_eq_mod scanCode hbyte] at h
      have hlt : scanCode % 128 < 128 := Nat.mod_lt _ (by norm_num)
      simp only [Option.some.injEq] at h
      split_ifs at h <;> omega
    · rw [scanCodeToKeyCode_extended host kbd scanCode hx hE hP] at h
      exact extendedKeyCode_le kbd._windowsAltSwap _ c h
  omega

/-- Witness of C22: in the start state with the swap enabled, the byte 0xB8 converts to
the key code 0x70. -/
theorem C22_key_code_in_bounds_witness :
    ((0xB8 : Nat) < 256
      ∧ (scanCodeToKeyCode exampleHost (init 0x39 true false) 0xB8).keyCode = some 0x70
      ∧ (0x70 : Nat) ≠ 0)
      ∧ (0x70 : Nat) < 128 :=
  ⟨⟨by decide, by decide, by decide⟩,
    (C22_key_code_in_bounds exampleHost (init 0x39 true false) 0xB8 0x70 (by decide)
      (by decide) (by decide)).2.2⟩

/-- The escape counter after a call on a byte that is no prefix. -/
theorem extendCount_after (host : Host) (kbd : GenericPS2Keyboard) (scanCode : Nat)
    (hE : scanCode ≠ 0xE0) (hP : scanCode ≠ 0xE1) :
    (dispatchKeyboardEventWithScancode host kbd scanCode).kbd._extendCount
      = kbd._extendCount - 1 := by
  rw [dispatch_extendCount]
  unfold scanCodeToKeyCode
  simp only [kSC_Extend, kSC_Pause, hE, hP, if_false]
  split_ifs <;> simp_all

/-- After any stream of bytes from a state whose escape counter is at most 2, the escape
counter is at most 2. -/
theorem feed_extendCount_le (host : Host) (bytes : List Nat) :
    ∀ kbd : GenericPS2Keyboard, kbd._extendCount ≤ 2 →
      (feed host kbd bytes).2._extendCount ≤ 2 := by
  induction bytes with
  | nil => exact fun kbd h => h
  | cons b rest ih =>
    intro kbd h
    apply ih
    by_cases hE : b = 0xE0
    · subst hE
      rw [(dispatch_escape_bytes host kbd).1]
      exact Nat.le_succ 1
    · by_cases hP : b = 0xE1
      · subst hP
        rw [(dispatch_escape_bytes host kbd).2]
      · rw [extendCount_after host kbd b hE hP]
        omega

/-- C23: `init` sets the escape counter to 0, and after every stream of bytes from the
start state it is 0, 1 or 2. A call on a byte that is no prefix leaves it at 0 when it
was 0, and otherwise takes exactly 1 away from it, so it never goes below 0; hence from
0, 1 or 2 it goes to 0 unless it was 2, in which case it goes to 1. A call on 0xE0 sets
it to 1 and a call on 0xE1 sets it to 2. -/
theorem C23_extend_count_range (host : Host) (capslockKeyCode : Nat)
    (windowsAltSwap remapFunctionKeys : Bool) (bytes : List Nat) (kbd : GenericPS2Keyboard)
    (scanCode : Nat) :
    (init capslockKeyCode windowsAltSwap remapFunctionKeys)._extendCount = 0
      ∧ (feed host (init capslockKeyCode windowsAltSwap remapFunctionKeys)
          bytes).2._extendCount ∈ [0, 1, 2]
      ∧ (scanCode ≠ 0xE0 → scanCode ≠ 0xE1 →
          (kbd._extendCount = 0 →
            (dispatchKeyboardEventWithScancode host kbd scanCode).kbd._extendCount = 0)
          ∧ (kbd._extendCount ≠ 0 →
            (dispatchKeyboardEventWithScancode host kbd scanCode).kbd._extendCount + 1
              = kbd._extendCount)
          ∧ (kbd._extendCount ≤ 2 →
            (dispatchKeyboardEventWithScancode host kbd scanCode).kbd._extendCount
              = if kbd._extendCount = 2 then 1 else 0))
      ∧ (dispatchKeyboardEventWithScancode host kbd 0xE0).kbd._extendCount = 1
      ∧ (dispatchKeyboardEventWithScancode host kbd 0xE1).kbd._extendCount = 2 := by
  refine ⟨rfl, ?_, ?_, ?_, ?_⟩
  · have h := feed_extendCount_le host bytes
      (init capslockKeyCode windowsAltSwap remapFunctionKeys) (Nat.zero_le 2)
    simp only [List.mem_cons, List.mem_singleton, List.mem_nil_iff, or_false]
    omega
  · intro hE hP
    rw [extendCount_after host kbd scanCode hE hP]
    refine ⟨fun h => by omega, fun h => by omega, fun h => ?_⟩
    split_ifs <;> omega
  · rw [(dispatch_escape_bytes host kbd).1]
  · rw [(dispatch_escape_bytes host kbd).2]

/-! ## Claims C24 - C26: make and break codes, the extended table, the interrupt action -/

/-- The configuration is the same after any stream of bytes. -/
theorem feed_config (host : Host) (bytes : List Nat) :
    ∀ kbd : GenericPS2Keyboard,
      (feed host kbd bytes).2._capslockKeyCode = kbd._capslockKeyCode
        ∧ (feed host kbd bytes).2._remapFunctionKeys = kbd._remapFunctionKeys
        ∧ (feed host kbd bytes).2._windowsAltSwap = kbd._windowsAltSwap := by
  induction bytes with
  | nil => exact fun kbd => ⟨rfl, rfl, rfl⟩
  | cons b rest ih =>
    intro kbd
    obtain ⟨h1, h2, h3⟩ := ih (dispatchKeyboardEventWithScancode host kbd b).kbd
    obtain ⟨c1, c2, c3⟩ := dispatch_config host kbd b
    exact ⟨h1.trans c3, h2.trans c2, h3.trans c1⟩

/-- The code `remapFunctionKeys` returns and the codes of the events it dispatches do
not depend on the direction. -/
theorem remapFunctionKeys_codes (host : Host) (adbKeyCode : Nat) (goingDown goingDown' : Bool) :
    (remapFunctionKeys host adbKeyCode goingDown').1
        = (remapFunctionKeys host adbKeyCode goingDown).1
      ∧ (remapFunctionKeys host adbKeyCode goingDown').2.map KeyEvent.keyCode
        = (remapFunctionKeys host adbKeyCode goingDown).2.map KeyEvent.keyCode := by
  by_cases h : adbKeyCode = 0x63
  · subst h
    exact ⟨rfl, rfl⟩
  · have e : remapFunctionKeys host adbKeyCode goingDown'
        = remapFunctionKeys host adbKeyCode goingDown := by
      simp only [remapFunctionKeys, h, if_false]
    rw [e]
    exact ⟨rfl, rfl⟩

/-- The codes delivered for a key depend on the configuration, on whether a latch is
held and on the key code, and on nothing else. -/
theorem deliver_codes_congr (host : Host) (kbd kbd' : GenericPS2Keyboard) (k : Nat)
    (goingDown goingDown' sleepNow sleepNow' : Bool)
    (hcaps : kbd'._capslockKeyCode = kbd._capslockKeyCode)
    (hremap : kbd'._remapFunctionKeys = kbd._remapFunctionKeys)
    (hlatch : latchHeld kbd' = latchHeld kbd) :
    (deliver host kbd' k goingDown' sleepNow').events.map KeyEvent.keyCode
      = (deliver host kbd k goingDown sleepNow).events.map KeyEvent.keyCode := by
  simp only [latchHeld] at hlatch
  obtain ⟨r1, r2⟩ := remapFunctionKeys_codes host
    (translatedKeyCode host kbd._capslockKeyCode k) goingDown goingDown'
  unfold deliver
  simp only [hcaps, hremap, hlatch, r1]
  cases kbd._remapFunctionKeys with
  | false => rfl
  | true =>
    simp only [if_true]
    by_cases h72 : translatedKeyCode host kbd._capslockKeyCode k = 0x72
    · simp only [h72, if_true, List.map_nil]
    · simp only [h72, if_false]
      by_cases h6e : translatedKeyCode host kbd._capslockKeyCode k = 0x6e
      · simp only [h6e, if_true, List.map_nil]
      · simp only [h6e, if_false]
        cases hl : (kbd._insertKeyDown || kbd._applicationKeyDown) with
        | true => rfl
        | false =>
          simp only [Bool.not_false, if_true]
          by_cases hd : (remapFunctionKeys host
              (translatedKeyCode host kbd._capslockKeyCode k) goingDown).1 = kRemappedDeadKey
          · simp only [hd, if_true]
            exact r2
          · simp only [hd, if_false, List.map_append, r2, List.map_cons, List.map_nil]

/-- The make of a logical key `k` is an accepted transition, any stream of bytes follows,
and then a break of `k` is an accepted transition; if at the break a latch is held
exactly when one was held at the make, the call for the break delivers events with the
same codes, in the same order, as the call for the make. -/
theorem make_break_codes_of_latchHeld (host : Host) (kbd : GenericPS2Keyboard)
    (scanCode : Nat) (between : List Nat) (scanCode' k : Nat)
    (hmake : Accepted host kbd scanCode k)
    (hbreak : Accepted host
      (feed host (dispatchKeyboardEventWithScancode host kbd scanCode).kbd between).2
      scanCode' k)
    (hlatch : latchHeld
        (feed host (dispatchKeyboardEventWithScancode host kbd scanCode).kbd between).2
      = latchHeld kbd) :
    (dispatchKeyboardEventWithScancode host
        (feed host (dispatchKeyboardEventWithScancode host kbd scanCode).kbd between).2
        scanCode').events.map KeyEvent.keyCode
      = (dispatchKeyboardEventWithScancode host kbd scanCode).events.map
          KeyEvent.keyCode := by
  obtain ⟨f1, f2, -⟩ := feed_config host between
    (dispatchKeyboardEventWithScancode host kbd scanCode).kbd
  obtain ⟨-, c2, c3⟩ := dispatch_config host kbd scanCode
  rw [dispatch_of_accepted host _ scanCode' k hbreak]
  conv_rhs => rw [dispatch_of_accepted host kbd scanCode k hmake]
  exact deliver_codes_congr host _ _ k _ _ _ _ (f1.trans c3) (f2.trans c2) hlatch

/-- A key whose translated code is neither a latch key code, nor an overlay position,
nor the dead-key value is delivered as one event with that code, in every state. -/
theorem deliver_codes_plain (host : Host) (kbd : GenericPS2Keyboard) (k : Nat)
    (goingDown sleepNow : Bool)
    (hlatch : translatedKeyCode host kbd._capslockKeyCode k ∉ [0x72, 0x6E])
    (hoverlay : translatedKeyCode host kbd._capslockKeyCode k
      ∉ [0x7A, 0x78, 0x63, 0x76, 0x62, 0x64, 0x65, 0x6D, 0x67, 0x6F])
    (hdead : translatedKeyCode host kbd._capslockKeyCode k ≠ 0xA4) :
    (deliver host kbd k goingDown sleepNow).events.map KeyEvent.keyCode
      = [translatedKeyCode host kbd._capslockKeyCode k] := by
  simp only [List.mem_cons, List.mem_singleton, List.mem_nil_iff, or_false, not_or]
    at hlatch hoverlay
  obtain ⟨l1, l2⟩ := hlatch
  obtain ⟨o1, o2, o3, o4, o5, o6, o7, o8, o9, o10⟩ := hoverlay
  have hre : remapFunctionKeys host (translatedKeyCode host kbd._capslockKeyCode k) goingDown
      = (translatedKeyCode host kbd._capslockKeyCode k, []) := by
    simp only [remapFunctionKeys, o1, o2, o3, o4, o5, o6, o7, o8, o9, o10, if_false]
  unfold deliver
  simp only [l1, l2, if_false, hre, kRemappedDeadKey, hdead, List.nil_append]
  split_ifs <;> rfl

/-- C24, the code at the failing input: on the example host, from the start state with
function-key remapping enabled, the make of the key 0x62 (E0 1C) is delivered with the
code 0xA1, the make E0 5D then sets the insert latch, and the break of the key 0x62
(E0 9C) is delivered with the code 0x62, so the code 0xA1 is never released; likewise
the make E0 35 delivers 0x3E and 0x7E and, after E0 5D, its break E0 B5 delivers 0x63.
The break carries the codes of the make whenever a latch is held at the break exactly
when one was held at the make, and without that condition for every key whose
translated code is neither a latch key code, nor an overlay position, nor 0xA4. -/
theorem C24_stuck_key (host : Host) (kbd : GenericPS2Keyboard) (scanCode : Nat)
    (between : List Nat) (scanCode' k : Nat) :
    (init 0x39 false true)._remapFunctionKeys = true
      ∧ feedEvents exampleHost (init 0x39 false true) [0xE0, 0x1C, 0xE0, 0x5D, 0xE0, 0x9C]
        = [[], [⟨0xA1, true, 1000⟩], [], [], [], [⟨0x62, false, 1000⟩]]
      ∧ (scanCodeToKeyCode exampleHost (extendPending 0x39 false true) 0x1C).keyCode
        = some 0x62
      ∧ (scanCodeToKeyCode exampleHost (extendPending 0x39 false true) 0x9C).keyCode
        = some 0x62
      ∧ feedEvents exampleHost (init 0x39 false true) [0xE0, 0x35, 0xE0, 0x5D, 0xE0, 0xB5]
        = [[], [⟨0x3E, true, 1001⟩, ⟨0x7E, true, 1001⟩], [], [], [],
           [⟨0x63, false, 1000⟩]]
      ∧ (Accepted host kbd scanCode k →
        Accepted host
          (feed host (dispatchKeyboardEventWithScancode host kbd scanCode).kbd between).2
          scanCode' k →
        latchHeld
            (feed host (dispatchKeyboardEventWithScancode host kbd scanCode).kbd between).2
          = latchHeld kbd →
        (dispatchKeyboardEventWithScancode host
            (feed host (dispatchKeyboardEventWithScancode host kbd scanCode).kbd between).2
            scanCode').events.map KeyEvent.keyCode
          = (dispatchKeyboardEventWithScancode host kbd scanCode).events.map
              KeyEvent.keyCode)
      ∧ (Accepted host kbd scanCode k →
        Accepted host
          (feed host (dispatchKeyboardEventWithScancode host kbd scanCode).kbd between).2
          scanCode' k →
        translatedKeyCode host kbd._capslockKeyCode k ∉ [0x72, 0x6E] →
        translatedKeyCode host kbd._capslockKeyCode k
          ∉ [0x7A, 0x78, 0x63, 0x76, 0x62, 0x64, 0x65, 0x6D, 0x67, 0x6F] →
        translatedKeyCode host kbd._capslockKeyCode k ≠ 0xA4 →
        (dispatchKeyboardEventWithScancode host kbd scanCode).events.map KeyEvent.keyCode
            = [translatedKeyCode host kbd._capslockKeyCode k]
          ∧ (dispatchKeyboardEventWithScancode host
              (feed host (dispatchKeyboardEventWithScancode host kbd scanCode).kbd
                between).2
              scanCode').events.map KeyEvent.keyCode
            = [translatedKeyCode host kbd._capslockKeyCode k]) := by
  refine ⟨rfl, by decide, by decide, by decide, by decide, ?_, ?_⟩
  · intro hmake hbreak hlatch
    exact make_break_codes_of_latchHeld host kbd scanCode between scanCode' k hmake hbreak
      hlatch
  · intro hmake hbreak hl ho hd
    obtain ⟨f1, -, -⟩ := feed_config host between
      (dispatchKeyboardEventWithScancode host kbd scanCode).kbd
    obtain ⟨-, -, c3⟩ := dispatch_config host kbd scanCode
    have hcaps := f1.trans c3
    refine ⟨?_, ?_⟩
    · rw [dispatch_of_accepted host kbd scanCode k hmake]
      exact deliver_codes_plain host _ k _ _ hl ho hd
    · rw [dispatch_of_accepted host _ scanCode' k hbreak]
      have := deliver_codes_plain host
        { (feed host (dispatchKeyboardEventWithScancode host kbd scanCode).kbd between).2 with
          _extendCount := 0
          _keyBitVector := updatedKeyBitVector
            (feed host (dispatchKeyboardEventWithScancode host kbd scanCode).kbd between).2
            scanCode' k }
        k (!hasUpBit scanCode')
        (scanCodeToKeyCode host
          (feed host (dispatchKeyboardEventWithScancode host kbd scanCode).kbd between).2
          scanCode').sleepNow
        (by rw [hcaps]; exact hl) (by rw [hcaps]; exact ho) (by rw [hcaps]; exact hd)
      rw [this]
      exact congrArg (fun x => [translatedKeyCode host x k]) hcaps

set_option maxRecDepth 100000 in
/-- With the swap disabled, two listed codes that get the same key code are the same
code. -/
theorem extendedKeyCode_table_injective : ∀ a ∈ extendedTableCodes,
    ∀ b ∈ extendedTableCodes,
      extendedKeyCode false a = extendedKeyCode false b → a = b := by
  decide

set_option maxRecDepth 100000 in
/-- With the swap enabled, two different listed codes that get the same key code are
0x49 and 0x5C. -/
theorem extendedKeyCode_table_swap : ∀ a ∈ extendedTableCodes, ∀ b ∈ extendedTableCodes,
    extendedKeyCode true a = extendedKeyCode true b → a ≠ b →
      (a = 0x49 ∧ b = 0x5C) ∨ (a = 0x5C ∧ b = 0x49) := by
  decide

/-- C25, the code at the failing input: with the alt/windows swap disabled the extended
table is injective on the codes it gives a key code to; with the swap enabled it is not:
the codes 0x5C (right windows) and 0x49 (page up) both get the key code 0x6A, they are
the only such pair, and after the make E0 49 the make E0 5C is dropped as an
autorepeat. -/
theorem C25_extended_table_collision (a b c : Nat) :
    (extendedKeyCode false a = some c → extendedKeyCode false b = some c → a = b)
      ∧ extendedKeyCode true 0x5C = some 0x6A
      ∧ extendedKeyCode true 0x49 = some 0x6A
      ∧ (extendedKeyCode true a = some c → extendedKeyCode true b = some c → a ≠ b →
          c = 0x6A ∧ ((a = 0x49 ∧ b = 0x5C) ∨ (a = 0x5C ∧ b = 0x49)))
      ∧ (feed exampleHost (init 0x39 true false) [0xE0, 0x49, 0xE0, 0x5C]).1
        = [false, true, false, false]
      ∧ (feed exampleHost (init 0x39 false false) [0xE0, 0x49, 0xE0, 0x5C]).1
        = [false, true, false, true] := by
  have mem : ∀ swap x, extendedKeyCode swap x = some c → x ∈ extendedTableCodes := by
    intro swap x hx
    by_contra hmem
    rw [extendedKeyCode_of_not_mem swap x hmem] at hx
    cases hx
  refine ⟨?_, by decide, by decide, ?_, by decide, by decide⟩
  · intro ha hb
    exact extendedKeyCode_table_injective a (mem false a ha) b (mem false b hb)
      (ha.trans hb.symm)
  · intro ha hb hab
    have h := extendedKeyCode_table_swap a (mem true a ha) b (mem true b hb)
      (ha.trans hb.symm) hab
    refine ⟨?_, h⟩
    rcases h with ⟨h1, -⟩ | ⟨h1, -⟩
    · subst h1
      exact (Option.some.inj (ha.symm.trans (by decide))).trans rfl
    · subst h1
      exact (Option.some.inj (ha.symm.trans (by decide))).trans rfl

/-- C26: a call of `interruptOccurred` on `kSC_Acknowledge` or on `kSC_Resend` writes a
log line, delivers no event, requests no power notification and leaves the driver object
as it was, so the byte that follows is handled as if the acknowledge or resend byte had
not arrived; a call on any other byte does what `dispatchKeyboardEventWithScancode` does
on it. -/
theorem C26_interrupt_action (K : Constants) (host : Host) (kbd : GenericPS2Keyboard)
    (scanCode : Nat) :
    interruptOccurred K host kbd K.kSC_Acknowledge = ⟨kbd, [], false, true⟩
      ∧ interruptOccurred K host kbd K.kSC_Resend = ⟨kbd, [], false, true⟩
      ∧ interruptOccurred K host (interruptOccurred K host kbd K.kSC_Acknowledge).kbd scanCode
        = interruptOccurred K host kbd scanCode
      ∧ interruptOccurred K host (interruptOccurred K host kbd K.kSC_Resend).kbd scanCode
        = interruptOccurred K host kbd scanCode
      ∧ (scanCode ≠ K.kSC_Acknowledge → scanCode ≠ K.kSC_Resend →
          interruptOccurred K host kbd scanCode
            = ⟨(dispatchKeyboardEventWithScancode host kbd scanCode).kbd,
               (dispatchKeyboardEventWithScancode host kbd scanCode).events,
               (dispatchKeyboardEventWithScancode host kbd scanCode).sleepNow, false⟩) := by
  have ha : interruptOccurred K host kbd K.kSC_Acknowledge = ⟨kbd, [], false, true⟩ := by
    simp [interruptOccurred]
  have hr : interruptOccurred K host kbd K.kSC_Resend = ⟨kbd, [], false, true⟩ := by
    unfold interruptOccurred
    by_cases h : K.kSC_Resend = K.kSC_Acknowledge
    · rw [if_pos h]
    · rw [if_neg h, if_pos rfl]
  refine ⟨ha, hr, by rw [ha], by rw [hr], ?_⟩
  intro h1 h2
  simp [interruptOccurred, h1, h2]

end GenericPS2Keyboard
